import Mathlib

/-!
# Verification of the SHIELD anti-fraud data simulator

Shallow embedding of `scripts/bank_data_simulator_advanced.py`
(class `AdvancedBankDataSimulator`): the transaction-generation engine
(`generate_transactions_advanced`), the device-fingerprint generator
(`generate_device_fingerprinting`) and the alert sampler
(`generate_fraud_alerts_history`), together with the two pure helpers
(`_get_seasonal_factor`, `_is_customer_merchant_compatible`).

Modelling conventions:
* Python floats are modelled as `ℚ`.  `round(x, 2)` is modelled by
  `round2` (round-to-nearest at hundredths; Python rounds ties to even,
  which only differs on exact midpoints and affects none of the
  properties proved here).
* Randomness is modelled as an input tape: each loop iteration reads a
  record of draws, one field per random call site.  A `random.random()`
  site is a rational clamped into `[0,1]` by `clamp01`;
  `random.uniform(a,b)` is `a + clamp01 u * (b-a)`; `random.randint(a,b)`
  is `a + u % (b-a+1)`; `np.random.normal` sites are unconstrained
  rationals (full support); `DataFrame.sample(1)` is an index draw taken
  `mod` the table length (the source's weights are strictly positive, so
  the support is the whole table), raising on an empty table exactly as
  pandas does.
* `datetime` values are modelled by the fields the engine actually
  reads: absolute time in seconds plus the weekday / hour / month used
  by the seasonality model.  The timestamp produced by an iteration's
  offset sampling is supplied directly on the tape.
* Transaction ids `f'TXN_{i+1:010d}'` are modelled by their numeric part
  `i+1` (the fixed-width zero-padded rendering is injective and
  order-preserving on this range).
-/

/-- A `random.random()` draw: the tape value clamped into the unit interval. -/
def clamp01 (r : ℚ) : ℚ := max 0 (min 1 r)

/-- Models `random.uniform(a, b)` driven by a unit-interval tape value. -/
def uniformQ (a b u : ℚ) : ℚ := a + clamp01 u * (b - a)

/-- Models `random.randint(a, b)` driven by a natural tape value. -/
def randintM (a b u : ℕ) : ℕ := a + u % (b - a + 1)

/-- Python's `round(x, 2)` (round to nearest hundredth). -/
def round2 (x : ℚ) : ℚ := ((round (100 * x) : ℤ) : ℚ) / 100

/-- Models `df.sample(1)` / `random.choice`: pick the element at the tape index
modulo the list length (empty lists fall back to the default, mirroring
the source's explicit emptiness guards). -/
def sampleList {α : Type} (l : List α) (j : ℕ) (dflt : α) : α :=
  l.getD (j % l.length) dflt

/-- The fields of a `datetime` read by the engine: absolute seconds plus
the calendar components consumed by `_get_seasonal_factor`. -/
structure TimestampM where
  secs : ℚ
  weekday : Fin 7
  hour : ℕ
  month : ℕ
deriving DecidableEq, Repr

/-- Models `day_weights` lookup of `_get_seasonal_factor` (Monday = 0;
`datetime.weekday()` always lies in `0..6`, hence the `Fin 7` domain). -/
def dayWeight (w : Fin 7) : ℚ :=
  if w.val = 0 then 9/10
  else if w.val = 1 then 19/20
  else if w.val = 2 then 1
  else if w.val = 3 then 21/20
  else if w.val = 4 then 13/10
  else if w.val = 5 then 8/5
  else 7/10

/-- Hour-of-day factor of `_get_seasonal_factor`. -/
def hourFactor (hour : ℕ) : ℚ :=
  if hour ≤ 5 then 3/20
  else if hour ≤ 8 then 3/5
  else if hour ≤ 11 then 1
  else if hour ≤ 14 then 7/5
  else if hour ≤ 17 then 11/10
  else if hour ≤ 21 then 3/2
  else 4/5

/-- Month factor of `_get_seasonal_factor`. -/
def monthFactor (month : ℕ) : ℚ :=
  if month = 12 then 9/5
  else if month = 1 ∨ month = 7 then 3/2
  else if month = 6 ∨ month = 7 ∨ month = 8 then 13/10
  else 1

/-- Models `_get_seasonal_factor`: product of the three lookups. -/
def get_seasonal_factor (ts : TimestampM) : ℚ :=
  dayWeight ts.weekday * hourFactor ts.hour * monthFactor ts.month

/-- The customer columns read by the engine. -/
structure Customer where
  customer_id : String
  customer_segment : String
  avg_transaction_amount : ℚ
  is_pep : ℕ
deriving DecidableEq, Repr

/-- The merchant columns read by the engine. -/
structure Merchant where
  merchant_id : String
  mcc_code : String
  merchant_risk_category : String
  merchant_country : String
  merchant_city : String
deriving DecidableEq, Repr

/-- Models `compatibility_matrix` of `_is_customer_merchant_compatible`
(`dict.get` with default `0.5`). -/
def compatibilityMatrix (segment risk : String) : ℚ :=
  if segment = "Basic" ∧ risk = "low" then 9/10
  else if segment = "Basic" ∧ risk = "medium" then 3/5
  else if segment = "Basic" ∧ risk = "high" then 1/5
  else if segment = "Standard" ∧ risk = "low" then 4/5
  else if segment = "Standard" ∧ risk = "medium" then 9/10
  else if segment = "Standard" ∧ risk = "high" then 1/2
  else if segment = "Premium" ∧ risk = "low" then 7/10
  else if segment = "Premium" ∧ risk = "medium" then 9/10
  else if segment = "Premium" ∧ risk = "high" then 4/5
  else if segment = "Private" ∧ risk = "low" then 3/5
  else if segment = "Private" ∧ risk = "medium" then 4/5
  else if segment = "Private" ∧ risk = "high" then 9/10
  else 1/2

/-- Models `_is_customer_merchant_compatible`. -/
def is_customer_merchant_compatible (c : Customer) (m : Merchant) : ℚ :=
  let base := compatibilityMatrix c.customer_segment m.merchant_risk_category
  let base := if c.is_pep = 1 ∧ (m.mcc_code = "7995" ∨ m.mcc_code = "5999")
    then base * (1/10) else base
  let base := if c.customer_segment = "Basic" ∧ (m.mcc_code = "5735" ∨ m.mcc_code = "4121")
    then base * (3/10) else base
  base

/-- One loop iteration's random draws, one field per call site of the
source's transaction loop. -/
structure Draw where
  /-- the `txn_timestamp` resulting from the days/hour/minute/second offsets -/
  ts : TimestampM
  /-- seasonality acceptance roll (line `if random.random() > seasonal_factor / 2.0`) -/
  seasonRoll : ℚ
  /-- weighted `customers.sample(1)` index -/
  custIdx : ℕ
  /-- Models `merchants.sample(1)` index, per compatibility attempt -/
  merchIdx : ℕ → ℕ
  /-- compatibility acceptance roll, per attempt -/
  merchRoll : ℕ → ℚ
  /-- card-testing trigger roll (`< 0.0005`) -/
  rollA : ℚ
  /-- card-testing `uniform(0.5, 4.99)` unit draw -/
  uA : ℚ
  /-- Models `foreign_merchants.sample(1)` index -/
  idxA : ℕ
  /-- card-testing `randint(1, 3)` draw -/
  delayA : ℕ
  /-- account-takeover trigger roll (`< 0.15`) -/
  rollB : ℚ
  /-- account-takeover `uniform(1000, 5000)` unit draw -/
  uB : ℚ
  /-- account-takeover round-to-hundred roll (`< 0.4`) -/
  roundB : ℚ
  /-- Models `high_risk.sample(1)` index -/
  idxB : ℕ
  /-- account-takeover `randint(7, 45)` draw -/
  delayB : ℕ
  /-- compromised-terminal trigger roll (`< 0.7`) -/
  rollC : ℚ
  /-- Models `np.random.normal(avg_transaction_amount, 30)` draw -/
  normC : ℚ
  /-- compromised-terminal `randint(14, 60)` draw -/
  delayC : ℕ
  /-- velocity trigger roll (`< 0.3`) -/
  rollD : ℚ
  /-- velocity `uniform(50, 300)` unit draw -/
  uD : ℚ
  /-- velocity `randint(1, 7)` draw -/
  delayD : ℕ
  /-- geographic trigger roll (`< 0.15`) -/
  rollE : ℚ
  /-- geographic `uniform(100, 800)` unit draw -/
  uE : ℚ
  /-- geographic `randint(3, 21)` draw -/
  delayE : ℕ
  /-- Models `np.random.normal(avg_transaction_amount, 15)` draw (legit amount) -/
  normL : ℚ
  /-- Models `transaction_type` choice index -/
  typeIdx : ℕ
  /-- fraud early-interdiction roll (`< 0.15`) -/
  statusRollF : ℚ
  /-- legit false-decline roll (`< 0.02`) -/
  statusRollL : ℚ

/-- An emitted transaction row (the dict appended at the end of each
accepted iteration). -/
structure Row where
  transaction_id : ℕ
  customer_id : String
  merchant_id : String
  transaction_timestamp : TimestampM
  amount : ℚ
  currency : String
  mcc_code : String
  merchant_country : String
  merchant_city : String
  transaction_type : String
  is_international : ℕ
  is_fraud : ℕ
  fraud_type : String
  detection_delay_days : Option ℕ
  transaction_status : String
  merchant_risk_category : String
deriving DecidableEq, Repr

/-- Per-customer runtime state of the engine: `customer_last_txn`
(timestamp in seconds) and `customer_countries`. -/
structure EngState where
  lastTxn : String → Option ℚ
  usualCountry : String → Option String

/-- Static inputs of `generate_transactions_advanced`: the two profile
tables, `self.merchant_clusters['compromised']`, and the pre-drawn 1%
fraudster sample (`fraudster_set`; its random construction is not
constrained by any claim, so it is passed in). -/
structure EngineInput where
  customers : List Customer
  merchants : List Merchant
  compromised : List String
  fraudsters : List String

/-- Models `customers.sample(1, weights=...)`: pandas raises on an empty table;
the weights (`avg_transaction_amount`, always ≥ 5) are strictly
positive, so the support is the whole table. -/
def sampleCustomer (cs : List Customer) (j : ℕ) : Except String Customer :=
  match cs with
  | [] => .error "sample: empty customer table"
  | c :: _ => .ok (sampleList cs j c)

/-- Models `merchants.sample(1)`: pandas raises on an empty table. -/
def sampleMerchant (ms : List Merchant) (j : ℕ) : Except String Merchant :=
  match ms with
  | [] => .error "sample: empty merchant table"
  | m :: _ => .ok (sampleList ms j m)

/-- The compatibility-retry loop (`while attempts < 5`): sample a
merchant, accept it with its compatibility score, keep the last sample
when every attempt's roll fails.  Called with the 5 attempts' draws. -/
def selectMerchant (ms : List Merchant) (c : Customer) :
    List (ℕ × ℚ) → Except String Merchant
  | [] => .error "sample: empty merchant table"
  | (j, r) :: rest =>
      match sampleMerchant ms j with
      | .error e => .error e
      | .ok m =>
        -- on the last attempt the sample is kept whether or not its roll succeeds
        if rest = [] then .ok m
        else if clamp01 r < is_customer_merchant_compatible c m then .ok m
        else selectMerchant ms c rest

/-- Models `transaction_type` choices. -/
def transactionTypes : List String :=
  ["card_present", "card_not_present", "contactless", "online"]

/-- The decision taken by one pass through the fraud-pattern cascade:
flag, tag, detection delay, amount, and the merchant after a possible
forcible reassignment. -/
structure Decision where
  is_fraud : ℕ
  fraud_type : String
  detection_delay : Option ℕ
  amount : ℚ
  merchant : Merchant
deriving DecidableEq, Repr

/-- The fraud-pattern cascade (the `if/elif` chain of the source),
evaluated for the selected customer and merchant. -/
def cascade (inp : EngineInput) (s : EngState) (d : Draw)
    (customer : Customer) (merchant0 : Merchant) : Decision :=
  if clamp01 d.rollA < 5/10000 then
    -- PATTERN A : card testing
    let amount := round2 (uniformQ (1/2) (499/100) d.uA)
    let foreign := inp.merchants.filter fun m => m.merchant_country ≠ "FR"
    let merchant := match foreign with
      | [] => merchant0
      | m :: _ => sampleList foreign d.idxA m
    ⟨1, "card_testing", some (randintM 1 3 d.delayA), amount, merchant⟩
  else if customer.customer_id ∈ inp.fraudsters ∧
      (customer.customer_segment = "Premium" ∨ customer.customer_segment = "Private") ∧
      clamp01 d.rollB < 3/20 then
    -- PATTERN B : account takeover
    let a0 := round2 (uniformQ 1000 5000 d.uB)
    let amount := if clamp01 d.roundB < 2/5
      then ((round (a0 / 100) : ℤ) : ℚ) * 100 else a0
    let highRisk := inp.merchants.filter fun m => m.merchant_risk_category = "high"
    let merchant := match highRisk with
      | [] => merchant0
      | m :: _ => sampleList highRisk d.idxB m
    ⟨1, "account_takeover", some (randintM 7 45 d.delayB), amount, merchant⟩
  else if merchant0.merchant_id ∈ inp.compromised then
    -- PATTERN C : compromised terminal
    if clamp01 d.rollC < 7/10 then
      ⟨1, "compromised_terminal", some (randintM 14 60 d.delayC),
        round2 (max 10 d.normC), merchant0⟩
    else ⟨0, "legit", none, round2 (max 1 d.normL), merchant0⟩
  else
    match s.lastTxn customer.customer_id with
    | some t =>
      -- PATTERN D : velocity (the `elif` fires on mere presence of a
      -- prior transaction; the 5-minute gap is tested only inside)
      if (d.ts.secs - t) / 60 < 5 ∧ clamp01 d.rollD < 3/10 then
        ⟨1, "velocity_fraud", some (randintM 1 7 d.delayD),
          round2 (uniformQ 50 300 d.uD), merchant0⟩
      else ⟨0, "legit", none, round2 (max 1 d.normL), merchant0⟩
    | none =>
      match s.usualCountry customer.customer_id with
      | some usual =>
        -- PATTERN E : geographic anomaly
        if merchant0.merchant_country ≠ usual ∧ merchant0.merchant_country ≠ "FR" then
          if clamp01 d.rollE < 3/20 then
            ⟨1, "geographic_anomaly", some (randintM 3 21 d.delayE),
              round2 (uniformQ 100 800 d.uE), merchant0⟩
          else ⟨0, "legit", none, round2 (max 1 d.normL), merchant0⟩
        else ⟨0, "legit", none, round2 (max 1 d.normL), merchant0⟩
      | none => ⟨0, "legit", none, round2 (max 1 d.normL), merchant0⟩

/-- Per-customer state update (runs for every emitted row): record the
new last-transaction time; freeze the merchant's country as the usual
country on first observation only. -/
def updState (s : EngState) (customer : Customer) (ts : TimestampM)
    (merchant : Merchant) : EngState :=
  { lastTxn := fun c =>
      if c = customer.customer_id then some ts.secs else s.lastTxn c,
    usualCountry := fun c =>
      if c = customer.customer_id then
        match s.usualCountry customer.customer_id with
        | some u => some u
        | none => some merchant.merchant_country
      else s.usualCountry c }

/-- Status assignment: early interdiction of 15% of frauds, 2% false
declines of legitimate transactions. -/
def mkStatus (d : Draw) (isF : ℕ) : String :=
  if isF ≠ 0 ∧ clamp01 d.statusRollF < 3/20 then "declined"
  else if isF = 0 ∧ clamp01 d.statusRollL < 1/50 then "declined"
  else "approved"

/-- The dict appended for draw counter `i` (note the columns taken from
the possibly reassigned merchant). -/
def mkRow (i : ℕ) (d : Draw) (customer : Customer) (res : Decision) : Row :=
  { transaction_id := i + 1
    customer_id := customer.customer_id
    merchant_id := res.merchant.merchant_id
    transaction_timestamp := d.ts
    amount := res.amount
    currency := "EUR"
    mcc_code := res.merchant.mcc_code
    merchant_country := res.merchant.merchant_country
    merchant_city := res.merchant.merchant_city
    transaction_type := sampleList transactionTypes d.typeIdx "card_present"
    is_international := if res.merchant.merchant_country ≠ "FR" then 1 else 0
    is_fraud := res.is_fraud
    fraud_type := res.fraud_type
    detection_delay_days := res.detection_delay
    transaction_status := mkStatus d res.is_fraud
    merchant_risk_category := res.merchant.merchant_risk_category }

/-- The five compatibility attempts' draws of one iteration. -/
def merchAttempts (d : Draw) : List (ℕ × ℚ) :=
  ([0, 1, 2, 3, 4] : List ℕ).map fun k => (d.merchIdx k, d.merchRoll k)

/-- One iteration of the transaction loop, for draw counter `i`.
Returns `none` (state untouched) when the seasonality test rejects the
draw, otherwise the emitted row and the updated per-customer state. -/
def stepDraw (inp : EngineInput) (s : EngState) (i : ℕ) (d : Draw) :
    Except String (Option Row × EngState) :=
  -- seasonality rejection: `if random.random() > seasonal_factor / 2.0: continue`
  if clamp01 d.seasonRoll > get_seasonal_factor d.ts / 2 then .ok (none, s)
  else
    match sampleCustomer inp.customers d.custIdx with
    | .error e => .error e
    | .ok customer =>
      match selectMerchant inp.merchants customer (merchAttempts d) with
      | .error e => .error e
      | .ok merchant0 =>
        let res := cascade inp s d customer merchant0
        .ok (some (mkRow i d customer res), updState s customer d.ts res.merchant)

/-- The transaction loop over a list of draw counters. -/
def engineGo (inp : EngineInput) (tape : ℕ → Draw) :
    List ℕ → EngState → Except String (List Row × EngState)
  | [], s => .ok ([], s)
  | i :: is, s =>
      match stepDraw inp s i (tape i) with
      | .error e => .error e
      | .ok (r?, s') =>
        match engineGo inp tape is s' with
        | .error e => .error e
        | .ok (rest, s'') => .ok (r?.toList ++ rest, s'')

/-- Initial per-customer state: both dicts empty. -/
def initState : EngState :=
  { lastTxn := fun _ => none, usualCountry := fun _ => none }

/-- Models `generate_transactions_advanced`: run the `n_transactions` draws.
The summary-statistics epilogue indexes the `is_fraud` column of the
result frame; `pd.DataFrame([])` has no columns, so an empty result
raises `KeyError` instead of returning. -/
def generate_transactions_advanced (inp : EngineInput) (n : ℕ)
    (tape : ℕ → Draw) : Except String (List Row) :=
  match engineGo inp tape (List.range n) initState with
  | .error e => .error e
  | .ok (rows, _) =>
    if rows.isEmpty then .error "KeyError: is_fraud (empty result frame)"
    else .ok rows

/-- A customer's current device record (one entry of `customer_devices`). -/
structure DeviceRec where
  device_id : String
  os : String
  browser : String
deriving DecidableEq, Repr

/-- One device-loop iteration's random draws, one field per call site. -/
structure DevDraw where
  /-- initial os choice for a first-seen customer -/
  osIdx : ℕ
  /-- initial browser choice for a first-seen customer -/
  browserIdx : ℕ
  /-- account-takeover device-sharing roll (`< 0.3`) -/
  atoShareRoll : ℚ
  /-- pool-reuse roll (`< 0.6`) -/
  reuseRoll : ℚ
  /-- Models `random.choice(list(self.compromised_devices))` index -/
  poolIdx : ℕ
  /-- device-change roll (`< 0.05`) -/
  changeRoll : ℚ
  /-- Models `random.randint(100000, 999999)` draw for the replacement device id -/
  newDevNum : ℕ
  /-- replacement-device os choice -/
  newOsIdx : ℕ
  /-- replacement-device browser choice -/
  newBrowserIdx : ℕ
  /-- VPN-flag roll -/
  vpnRoll : ℚ
  /-- emulator-flag roll -/
  emulRoll : ℚ
  /-- Models `device_type` choice index -/
  devTypeIdx : ℕ
  /-- Models `screen_resolution` choice index -/
  resIdx : ℕ
  /-- Models `fake.ipv4()` -/
  ip : String

/-- An emitted device row (without the post-hoc `device_user_count`). -/
structure DevRow where
  transaction_id : ℕ
  device_id : String
  device_type : String
  os : String
  browser : String
  ip_address : String
  is_vpn : ℕ
  is_emulator : ℕ
  device_change_24h : ℕ
  screen_resolution : String
  language : String
  timezone : String
  user_agent : String
deriving DecidableEq, Repr

/-- A device row with the joined `device_user_count` column. -/
structure DevRowF where
  row : DevRow
  device_user_count : ℕ
deriving DecidableEq, Repr

/-- Running state of the device loop: the `customer_devices` dict (with
its length tracked for the `DEV_{len:08d}` ids), the
`device_usage_count` dict (each set of customers kept as a
duplicate-free list), and the simulator-instance field
`self.compromised_devices` (kept as an append-ordered list; the
source's `set` only ever receives fresh `DEV_FRAUD_{len:05d}` names, so
membership and size agree). -/
structure DevState where
  customerDevices : String → Option DeviceRec
  numCustomers : ℕ
  usage : String → List String
  pool : List String

/-- Models `set.add` on a duplicate-free list. -/
def insertDistinct (l : List String) (c : String) : List String :=
  if c ∈ l then l else c :: l

/-- Zero-pad a numeral to width `w` (the `f'..{n:0wd}'` format). -/
def padNum (w : ℕ) (n : ℕ) : String :=
  let s := toString n
  String.mk (List.replicate (w - s.length) '0') ++ s

/-- Models `os` choices. -/
def osChoices : List String := ["iOS", "Android", "Windows", "MacOS"]

/-- Models `browser` choices. -/
def browserChoices : List String := ["Safari", "Chrome", "Firefox", "Edge"]

/-- One iteration of the device loop for transaction `txn`. -/
def devStep (txn : Row) (d : DevDraw) (s : DevState) : DevRow × DevState :=
  let cid := txn.customer_id
  -- first-seen customer: mint a device record named from the dict size
  let firstSeen : DeviceRec × (String → Option DeviceRec) × ℕ :=
    match s.customerDevices cid with
    | some r => (r, s.customerDevices, s.numCustomers)
    | none =>
      let r : DeviceRec :=
        { device_id := "DEV_" ++ padNum 8 s.numCustomers
          os := sampleList osChoices d.osIdx "iOS"
          browser := sampleList browserChoices d.browserIdx "Safari" }
      (r, fun c => if c = cid then some r else s.customerDevices c,
        s.numCustomers + 1)
  let rec0 := firstSeen.1
  let cd1 := firstSeen.2.1
  let num1 := firstSeen.2.2
  -- account-takeover device sharing: reuse or mint a pool entry
  let shared : DeviceRec × (String → Option DeviceRec) × List String :=
    if txn.fraud_type = "account_takeover" ∧ clamp01 d.atoShareRoll < 3/10 then
      let pick : String × List String :=
        if s.pool ≠ [] ∧ clamp01 d.reuseRoll < 3/5 then
          (sampleList s.pool d.poolIdx "", s.pool)
        else
          let newId := "DEV_FRAUD_" ++ padNum 5 s.pool.length
          (newId, s.pool ++ [newId])
      let r := { rec0 with device_id := pick.1 }
      (r, fun c => if c = cid then some r else cd1 c, pick.2)
    else (rec0, cd1, s.pool)
  let rec1 := shared.1
  let cd2 := shared.2.1
  let pool2 := shared.2.2
  -- 5% device change (after the row's device identity is fixed)
  let change : ℕ × (String → Option DeviceRec) :=
    if clamp01 d.changeRoll < 1/20 then
      let r : DeviceRec :=
        { device_id := "DEV_" ++ padNum 8 (randintM 100000 999999 d.newDevNum)
          os := sampleList osChoices d.newOsIdx "iOS"
          browser := sampleList browserChoices d.newBrowserIdx "Safari" }
      (1, fun c => if c = cid then some r else cd2 c)
    else (0, cd2)
  let isVpn := if txn.is_fraud ≠ 0 then (if clamp01 d.vpnRoll < 13/20 then 1 else 0)
    else (if clamp01 d.vpnRoll < 2/25 then 1 else 0)
  let isEmu := if txn.is_fraud ≠ 0 then (if clamp01 d.emulRoll < 7/20 then 1 else 0)
    else 0
  let row : DevRow :=
    { transaction_id := txn.transaction_id
      device_id := rec1.device_id
      device_type := sampleList ["mobile", "tablet", "desktop"] d.devTypeIdx "mobile"
      os := rec1.os
      browser := rec1.browser
      ip_address := d.ip
      is_vpn := isVpn
      is_emulator := isEmu
      device_change_24h := change.1
      screen_resolution :=
        sampleList ["1920x1080", "1366x768", "375x667", "414x896"] d.resIdx "1920x1080"
      language := "fr-FR"
      timezone := "Europe/Paris"
      user_agent := "Mozilla/5.0 (" ++ rec1.os ++ ") " ++ rec1.browser }
  (row,
    { customerDevices := change.2
      numCustomers := num1
      usage := fun dvc => if dvc = rec1.device_id
        then insertDistinct (s.usage rec1.device_id) cid else s.usage dvc
      pool := pool2 })

/-- The device loop over the transaction stream (draw counter `k`). -/
def devGo (tape : ℕ → DevDraw) :
    List Row → ℕ → DevState → List DevRow × DevState
  | [], _, s => ([], s)
  | t :: ts, k, s =>
      let (row, s') := devStep t (tape k) s
      let (rest, s'') := devGo tape ts (k + 1) s'
      (row :: rest, s'')

/-- Models `generate_device_fingerprinting`: `customer_devices` and
`device_usage_count` start empty each invocation (they are locals), but
the compromised-device pool is the simulator-instance field
`self.compromised_devices`, threaded in and out.  Returns the device
rows with the joined `device_user_count` column, and the final pool. -/
def generate_device_fingerprinting (pool₀ : List String) (txns : List Row)
    (tape : ℕ → DevDraw) : List DevRowF × List String :=
  let res := devGo tape txns 0
    { customerDevices := fun _ => none, numCustomers := 0,
      usage := fun _ => [], pool := pool₀ }
  (res.1.map fun r =>
    { row := r, device_user_count := (res.2.usage r.device_id).length },
    res.2.pool)

/-- One alert's random draws. -/
structure AlertDraw where
  /-- Models `int(np.random.exponential(scale))` draw (nonnegative integer support) -/
  resp : ℕ
  /-- alert-score uniform unit draw -/
  scoreU : ℚ
  /-- Models `alert_type` choice index -/
  typeIdx : ℕ
  /-- Models `random.randint(1, 25)` reviewer draw -/
  reviewerNum : ℕ

/-- An emitted alert row.  `alert_date` and `confirmation_date` are kept
in absolute seconds (`timedelta(days=d)` adds `86400 * d` seconds). -/
structure Alert where
  alert_id : ℕ
  transaction_id : ℕ
  customer_id : String
  alert_date : TimestampM
  alert_type : String
  alert_score : ℚ
  is_confirmed_fraud : ℕ
  fraud_type : Option String
  response_time_minutes : ℕ
  reviewed_by : String
  resolution : String
  confirmation_date : ℚ
deriving DecidableEq, Repr

/-- Python's `round(x, 1)`. -/
def round1 (x : ℚ) : ℚ := ((round (10 * x) : ℤ) : ℚ) / 10

/-- Models `alert_type` choices. -/
def alertTypes : List String :=
  ["velocity", "amount_threshold", "geo_mismatch",
   "new_merchant", "time_anomaly", "device_fingerprint"]

/-- Build the alert for the sampled transaction at position `k` of the
concatenated sample (`alert_id` is `len(alerts)+1`). -/
def mkAlert (k : ℕ) (txn : Row) (d : AlertDraw) : Alert :=
  { alert_id := k + 1
    transaction_id := txn.transaction_id
    customer_id := txn.customer_id
    alert_date := txn.transaction_timestamp
    alert_type := sampleList alertTypes d.typeIdx "velocity"
    alert_score := if txn.is_fraud ≠ 0 then round1 (uniformQ 70 98 d.scoreU)
      else round1 (uniformQ 35 75 d.scoreU)
    is_confirmed_fraud := txn.is_fraud
    fraud_type := if txn.is_fraud ≠ 0 then some txn.fraud_type else none
    response_time_minutes := d.resp
    reviewed_by := "ANALYST_" ++ padNum 2 (randintM 1 25 d.reviewerNum)
    resolution := if txn.is_fraud ≠ 0 then "fraud_confirmed" else "false_positive"
    confirmation_date := txn.transaction_timestamp.secs +
      86400 * (if txn.is_fraud ≠ 0 then ((txn.detection_delay_days.getD 0 : ℕ) : ℚ) else 0) }

/-- Python's `round` (round-half-to-even, banker's rounding). -/
def pyRound (q : ℚ) : ℤ :=
  let f := ⌊q⌋
  let r := q - (f : ℚ)
  if r < 1/2 then f
  else if (1:ℚ)/2 < r then f + 1
  else if f % 2 = 0 then f else f + 1

/-- Models `DataFrame.sample(frac=...)` draws `round(frac * len)` rows. -/
def sampleSize (frac : ℚ) (n : ℕ) : ℕ := (pyRound (frac * n)).toNat

/-- Models `generate_fraud_alerts_history`, with the two random row subsets
(`transactions[is_fraud==1].sample(frac=0.65)` and
`transactions[is_fraud==0].sample(frac=0.025)`) supplied as arguments;
theorems constrain them to be permutations of sublists of the
respective filtered tables of the sampled size. -/
def generate_fraud_alerts_history (frSel lgSel : List Row)
    (tape : ℕ → AlertDraw) : List Alert :=
  (frSel ++ lgSel).enum.map fun p => mkAlert p.1 p.2 (tape p.1)

/-- The fraud rows eligible for the 65% detection sample. -/
def fraudRows (txns : List Row) : List Row :=
  txns.filter fun t => t.is_fraud = 1

/-- The legitimate rows eligible for the 2.5% false-positive sample. -/
def legitRows (txns : List Row) : List Row :=
  txns.filter fun t => t.is_fraud = 0

/-- The (device id, customer id) observation pairs of a device pass:
row `k` of the device table observes transaction `k`'s customer against
row `k`'s device id. -/
def devicePairs (devRows : List DevRowF) (txns : List Row) : List (String × String) :=
  (devRows.zip txns).map fun p => (p.1.row.device_id, p.2.customer_id)

/-- The set of distinct customers observed against device `dvc`. -/
def observedUsers (pairs : List (String × String)) (dvc : String) : Finset String :=
  ((pairs.filter fun p => p.1 = dvc).map Prod.snd).toFinset

/-- The six values `fraud_type` can take. -/
def fraudTypeValues : List String :=
  ["legit", "card_testing", "account_takeover", "compromised_terminal",
   "velocity_fraud", "geographic_anomaly"]

/-- The engine's state invariant: a customer with a recorded usual
country always has a recorded last-transaction time (both dicts are
written together on every emission). -/
def stateInv (s : EngState) : Prop :=
  ∀ c, s.usualCountry c ≠ none → s.lastTxn c ≠ none

/-- The (device id, customer id) pairs observed by a device pass. -/
def rawPairs (rows : List DevRow) (txns : List Row) : List (String × String) :=
  (rows.zip txns).map fun p => (p.1.device_id, p.2.customer_id)

/-- Witness customer. -/
def cW : Customer :=
  { customer_id := "CUST_00000001", customer_segment := "Standard",
    avg_transaction_amount := 20, is_pep := 0 }

/-- Witness domestic merchant. -/
def mFR : Merchant :=
  { merchant_id := "MERCH_0000001", mcc_code := "5411",
    merchant_risk_category := "low", merchant_country := "FR",
    merchant_city := "Paris" }

/-- Witness timestamp (a Monday at 12h, March). -/
def tsW : TimestampM := { secs := 0, weekday := 0, hour := 12, month := 3 }

/-- Witness draw: accepted by the seasonality test, no fraud roll
fires. -/
def dW : Draw :=
  { ts := tsW, seasonRoll := 0, custIdx := 0, merchIdx := fun _ => 0,
    merchRoll := fun _ => 0, rollA := 1, uA := 0, idxA := 0, delayA := 0,
    rollB := 1, uB := 0, roundB := 1, idxB := 0, delayB := 0, rollC := 1,
    normC := 0, delayC := 0, rollD := 1, uD := 0, delayD := 0, rollE := 1,
    uE := 0, delayE := 0, normL := 20, typeIdx := 0, statusRollF := 1,
    statusRollL := 1 }

/-- Witness engine input. -/
def inpW : EngineInput :=
  { customers := [cW], merchants := [mFR], compromised := [], fraudsters := [] }

/-- Witness tape: the same accepted draw at every counter. -/
def tapeW : ℕ → Draw := fun _ => dW

/-- The row emitted by the witness run. -/
def rowW : Row := mkRow 0 dW cW (cascade inpW initState dW cW mFR)

/-- A draw whose card-testing roll fires. -/
def dCT : Draw := { dW with rollA := 0 }

/-- Tape for the card-testing run. -/
def tapeCT : ℕ → Draw := fun _ => dCT

/-- The card-testing row emitted by that run. -/
def rowCT : Row := mkRow 0 dCT cW (cascade inpW initState dCT cW mFR)

/-- A draw the seasonality test rejects. -/
def dRej : Draw := { dW with seasonRoll := 1 }

/-- Tape with a rejected draw at counter 0 and an accepted one after. -/
def tape10 : ℕ → Draw := fun i => if i = 0 then dRej else dW

/-- The single row of that two-draw run (emitted by draw 1). -/
def rowX : Row := mkRow 1 dW cW (cascade inpW initState dW cW mFR)

/-- The device generator's initial state for a given instance pool. -/
def devS0 (pool₀ : List String) : DevState :=
  { customerDevices := fun _ => none, numCustomers := 0,
    usage := fun _ => [], pool := pool₀ }

/-- Witness device draw: no sharing, no change. -/
def dDevW : DevDraw :=
  { osIdx := 0, browserIdx := 0, atoShareRoll := 1, reuseRoll := 1, poolIdx := 0,
    changeRoll := 1, newDevNum := 0, newOsIdx := 0, newBrowserIdx := 0,
    vpnRoll := 1, emulRoll := 1, devTypeIdx := 0, resIdx := 0,
    ip := "192.168.0.1" }

/-- Witness device tape. -/
def devTapeW : ℕ → DevDraw := fun _ => dDevW

/-- The joined device row of the witness device pass. -/
def devRowFW : DevRowF :=
  ⟨(devStep rowW dDevW (devS0 [])).1,
   ((devStep rowW dDevW (devS0 [])).2.usage
     ((devStep rowW dDevW (devS0 [])).1.device_id)).length⟩

/-- An account-takeover row fed to the device generator. -/
def rowATO1 : Row :=
  { transaction_id := 1, customer_id := "CUST_A", merchant_id := "MERCH_X",
    transaction_timestamp := tsW, amount := 1000, currency := "EUR",
    mcc_code := "5999", merchant_country := "US", merchant_city := "NYC",
    transaction_type := "online", is_international := 1, is_fraud := 1,
    fraud_type := "account_takeover", detection_delay_days := some 10,
    transaction_status := "approved", merchant_risk_category := "high" }

/-- A second account-takeover row, by another customer. -/
def rowATO2 : Row := { rowATO1 with transaction_id := 2, customer_id := "CUST_B" }

/-- Draw that mints a shared fraud device (pool empty). -/
def dMint : DevDraw := { dDevW with atoShareRoll := 0 }

/-- Draw that reuses a pooled fraud device. -/
def dReuse : DevDraw := { dDevW with atoShareRoll := 0, reuseRoll := 0 }

/-- Witness alert draw. -/
def alertDrawW : AlertDraw :=
  { resp := 0, scoreU := 0, typeIdx := 0, reviewerNum := 0 }

/-- Witness alert tape. -/
def alertTapeW : ℕ → AlertDraw := fun _ => alertDrawW

/-!
## Lemmas and claim theorems
-/

lemma clamp01_nonneg (r : ℚ) : 0 ≤ clamp01 r := le_max_left _ _

lemma clamp01_le_one (r : ℚ) : clamp01 r ≤ 1 :=
  max_le (by norm_num) (min_le_left _ _)

lemma uniformQ_le_right {a b : ℚ} (u : ℚ) (hab : a ≤ b) : uniformQ a b u ≤ b := by
  have h1 := clamp01_nonneg u
  have h2 := clamp01_le_one u
  unfold uniformQ
  nlinarith

lemma uniformQ_le_left {a b : ℚ} (u : ℚ) (hab : a ≤ b) : a ≤ uniformQ a b u := by
  have h1 := clamp01_nonneg u
  have h2 := clamp01_le_one u
  unfold uniformQ
  nlinarith

lemma round_mono_q {x y : ℚ} (h : x ≤ y) : round x ≤ round y := by
  rw [round_eq, round_eq]
  exact Int.floor_mono (by linarith)

lemma round2_le_right {x : ℚ} {b : ℤ} (h : x ≤ (b : ℚ) / 100) :
    round2 x ≤ (b : ℚ) / 100 := by
  have h1 : (100 : ℚ) * x ≤ (b : ℚ) := by
    rw [le_div_iff (by norm_num : (0:ℚ) < 100)] at h
    linarith
  have h2 : round ((100 : ℚ) * x) ≤ b := by
    have := round_mono_q (y := ((b : ℤ) : ℚ)) h1
    rwa [round_intCast] at this
  unfold round2
  have h3 : ((round ((100:ℚ) * x) : ℤ) : ℚ) ≤ (b : ℚ) := by exact_mod_cast h2
  linarith

lemma round2_le_left {x : ℚ} {a : ℤ} (h : (a : ℚ) / 100 ≤ x) :
    (a : ℚ) / 100 ≤ round2 x := by
  have h1 : (a : ℚ) ≤ (100 : ℚ) * x := by
    rw [div_le_iff (by norm_num : (0:ℚ) < 100)] at h
    linarith
  have h2 : a ≤ round ((100 : ℚ) * x) := by
    have := round_mono_q (x := ((a : ℤ) : ℚ)) h1
    rwa [round_intCast] at this
  unfold round2
  have h3 : (a : ℚ) ≤ ((round ((100:ℚ) * x) : ℤ) : ℚ) := by exact_mod_cast h2
  linarith

lemma randintM_le_left (a b u : ℕ) : a ≤ randintM a b u := Nat.le_add_right _ _

lemma randintM_le_right {a b : ℕ} (u : ℕ) (h : a ≤ b) : randintM a b u ≤ b := by
  have := Nat.mod_lt u (show 0 < b - a + 1 by omega)
  unfold randintM
  omega

lemma sampleList_mem {α : Type} (l : List α) (j : ℕ) (dflt : α) (h : l ≠ []) :
    sampleList l j dflt ∈ l := by
  have hl : 0 < l.length := List.length_pos.mpr h
  have hj : j % l.length < l.length := Nat.mod_lt _ hl
  unfold sampleList
  rw [List.getD_eq_get _ _ hj]
  exact List.get_mem _ _ _

lemma sampleCustomer_ok_mem {cs : List Customer} {j : ℕ} {c : Customer}
    (h : sampleCustomer cs j = .ok c) : c ∈ cs := by
  match cs with
  | [] => simp [sampleCustomer] at h
  | c0 :: cs' =>
    simp only [sampleCustomer, Except.ok.injEq] at h
    subst h
    exact sampleList_mem _ _ _ (by simp)

lemma sampleCustomer_ok_ne_nil {cs : List Customer} {j : ℕ} {c : Customer}
    (h : sampleCustomer cs j = .ok c) : cs ≠ [] := by
  intro hnil
  subst hnil
  simp [sampleCustomer] at h

lemma sampleMerchant_ok_mem {ms : List Merchant} {j : ℕ} {m : Merchant}
    (h : sampleMerchant ms j = .ok m) : m ∈ ms := by
  match ms with
  | [] => simp [sampleMerchant] at h
  | m0 :: ms' =>
    simp only [sampleMerchant, Except.ok.injEq] at h
    subst h
    exact sampleList_mem _ _ _ (by simp)

lemma selectMerchant_ok_mem {ms : List Merchant} {c : Customer} :
    ∀ {att : List (ℕ × ℚ)} {m : Merchant},
    selectMerchant ms c att = .ok m → m ∈ ms
  | [], m, h => by simp [selectMerchant] at h
  | (j, r) :: rest, m, h => by
      rw [selectMerchant] at h
      cases hs : sampleMerchant ms j with
      | error e => rw [hs] at h; exact absurd h (by simp)
      | ok m1 =>
        rw [hs] at h
        replace h : (if rest = [] then Except.ok m1
            else if clamp01 r < is_customer_merchant_compatible c m1 then Except.ok m1
            else selectMerchant ms c rest) = Except.ok m := h
        by_cases hr : rest = []
        · rw [if_pos hr] at h
          cases h
          exact sampleMerchant_ok_mem hs
        · rw [if_neg hr] at h
          by_cases hc : clamp01 r < is_customer_merchant_compatible c m1
          · rw [if_pos hc] at h
            cases h
            exact sampleMerchant_ok_mem hs
          · rw [if_neg hc] at h
            exact selectMerchant_ok_mem h

lemma selectMerchant_ok_ne_nil {ms : List Merchant} {c : Customer}
    {att : List (ℕ × ℚ)} {m : Merchant}
    (h : selectMerchant ms c att = .ok m) : ms ≠ [] :=
  fun hnil => by
    subst hnil
    exact List.not_mem_nil m (selectMerchant_ok_mem h)

lemma cascade_fraud_type_mem (inp : EngineInput) (s : EngState) (d : Draw)
    (customer : Customer) (merchant0 : Merchant) :
    (cascade inp s d customer merchant0).fraud_type ∈ fraudTypeValues := by
  simp only [cascade]
  repeat' split
  all_goals simp [fraudTypeValues]

lemma cascade_labels (inp : EngineInput) (s : EngState) (d : Draw)
    (customer : Customer) (merchant0 : Merchant) :
    ((cascade inp s d customer merchant0).is_fraud = 1 ↔
      (cascade inp s d customer merchant0).fraud_type ≠ "legit") ∧
    ((cascade inp s d customer merchant0).is_fraud = 1 ↔
      (cascade inp s d customer merchant0).detection_delay ≠ none) := by
  simp only [cascade]
  repeat' split
  all_goals simp

lemma cascade_merchant_mem {inp : EngineInput} (s : EngState) (d : Draw)
    (customer : Customer) {merchant0 : Merchant} (h0 : merchant0 ∈ inp.merchants) :
    (cascade inp s d customer merchant0).merchant ∈ inp.merchants := by
  simp only [cascade]
  repeat' split
  all_goals simp only []
  all_goals
    first
    | exact h0
    | (rename_i hf
       refine List.mem_of_mem_filter (sampleList_mem _ _ _ ?_)
       rw [hf]
       exact List.cons_ne_nil _ _)

lemma card_amount_bounds (u : ℚ) :
    1/2 ≤ round2 (uniformQ (1/2) (499/100) u) ∧
    round2 (uniformQ (1/2) (499/100) u) ≤ 499/100 := by
  have hlo := uniformQ_le_left (a := 1/2) (b := 499/100) u (by norm_num)
  have hhi := uniformQ_le_right (a := 1/2) (b := 499/100) u (by norm_num)
  have h1 : ((50 : ℤ) : ℚ)/100 ≤ uniformQ (1/2) (499/100) u := by push_cast; linarith
  have h2 : uniformQ (1/2) (499/100) u ≤ ((499 : ℤ) : ℚ)/100 := by push_cast; linarith
  have b1 := round2_le_left h1
  have b2 := round2_le_right h2
  constructor
  · push_cast at b1; linarith
  · push_cast at b2; linarith

lemma cascade_card_testing_amount (inp : EngineInput) (s : EngState) (d : Draw)
    (customer : Customer) (merchant0 : Merchant) :
    (cascade inp s d customer merchant0).fraud_type = "card_testing" →
    1/2 ≤ (cascade inp s d customer merchant0).amount ∧
    (cascade inp s d customer merchant0).amount ≤ 499/100 := by
  simp only [cascade]
  repeat' split
  all_goals intro h
  all_goals
    first
    | exact card_amount_bounds d.uA
    | simp at h

lemma ato_amount_base_bounds (u : ℚ) :
    1000 ≤ round2 (uniformQ 1000 5000 u) ∧ round2 (uniformQ 1000 5000 u) ≤ 5000 := by
  have hlo := uniformQ_le_left (a := 1000) (b := 5000) u (by norm_num)
  have hhi := uniformQ_le_right (a := 1000) (b := 5000) u (by norm_num)
  have h1 : ((100000 : ℤ) : ℚ)/100 ≤ uniformQ 1000 5000 u := by push_cast; linarith
  have h2 : uniformQ 1000 5000 u ≤ ((500000 : ℤ) : ℚ)/100 := by push_cast; linarith
  have b1 := round2_le_left h1
  have b2 := round2_le_right h2
  constructor
  · push_cast at b1; linarith
  · push_cast at b2; linarith

lemma ato_amount_rounded_bounds (u : ℚ) :
    1000 ≤ ((round (round2 (uniformQ 1000 5000 u) / 100) : ℤ) : ℚ) * 100 ∧
    ((round (round2 (uniformQ 1000 5000 u) / 100) : ℤ) : ℚ) * 100 ≤ 5000 := by
  obtain ⟨b1, b2⟩ := ato_amount_base_bounds u
  have h10 : ((10 : ℤ) : ℚ) ≤ round2 (uniformQ 1000 5000 u) / 100 := by push_cast; linarith
  have h50 : round2 (uniformQ 1000 5000 u) / 100 ≤ ((50 : ℤ) : ℚ) := by push_cast; linarith
  have r10 : (10 : ℤ) ≤ round (round2 (uniformQ 1000 5000 u) / 100) := by
    have := round_mono_q h10
    rwa [round_intCast] at this
  have r50 : round (round2 (uniformQ 1000 5000 u) / 100) ≤ (50 : ℤ) := by
    have := round_mono_q h50
    rwa [round_intCast] at this
  have c10 : ((10 : ℤ) : ℚ) ≤ ((round (round2 (uniformQ 1000 5000 u) / 100) : ℤ) : ℚ) := by
    exact_mod_cast r10
  have c50 : ((round (round2 (uniformQ 1000 5000 u) / 100) : ℤ) : ℚ) ≤ ((50 : ℤ) : ℚ) := by
    exact_mod_cast r50
  constructor
  · push_cast at c10; linarith
  · push_cast at c50; linarith

lemma cascade_ato_amount (inp : EngineInput) (s : EngState) (d : Draw)
    (customer : Customer) (merchant0 : Merchant) :
    (cascade inp s d customer merchant0).fraud_type = "account_takeover" →
    1000 ≤ (cascade inp s d customer merchant0).amount ∧
    (cascade inp s d customer merchant0).amount ≤ 5000 := by
  simp only [cascade]
  repeat' split
  all_goals intro h
  all_goals
    first
    | exact ato_amount_rounded_bounds d.uB
    | exact ato_amount_base_bounds d.uB
    | simp at h

/-- The geographic-anomaly branch requires a recorded usual country
together with *no* recorded last transaction; under the engine's state
invariant this is impossible. -/
lemma cascade_not_geo {inp : EngineInput} {s : EngState} (d : Draw)
    {customer : Customer} (merchant0 : Merchant)
    (hinv : s.usualCountry customer.customer_id ≠ none →
      s.lastTxn customer.customer_id ≠ none) :
    (cascade inp s d customer merchant0).fraud_type ≠ "geographic_anomaly" := by
  simp only [cascade]
  repeat' split
  all_goals first
    | (simp; done)
    | (rename_i x1 hlast x2 usual husual hcountry hroll
       exact absurd hlast (hinv (by simp [husual])))

/-- A draw the seasonality test rejects emits no row and leaves the
per-customer state untouched. -/
lemma stepDraw_rejected {inp : EngineInput} {s : EngState} {i : ℕ} {d : Draw}
    (h : clamp01 d.seasonRoll > get_seasonal_factor d.ts / 2) :
    stepDraw inp s i d = .ok (none, s) := by
  unfold stepDraw
  rw [if_pos h]

/-- Inversion for an emitted row: the draw was accepted, the customer
and merchant were successfully sampled, and the row and state are built
by `mkRow` / `updState` over the cascade's decision. -/
lemma stepDraw_emit {inp : EngineInput} {s : EngState} {i : ℕ} {d : Draw}
    {r : Row} {s' : EngState}
    (h : stepDraw inp s i d = .ok (some r, s')) :
    ¬ clamp01 d.seasonRoll > get_seasonal_factor d.ts / 2 ∧
    ∃ customer merchant0,
      sampleCustomer inp.customers d.custIdx = .ok customer ∧
      selectMerchant inp.merchants customer (merchAttempts d) = .ok merchant0 ∧
      r = mkRow i d customer (cascade inp s d customer merchant0) ∧
      s' = updState s customer d.ts (cascade inp s d customer merchant0).merchant := by
  unfold stepDraw at h
  split at h
  · exact absurd h (by simp)
  · rename_i hrej
    refine ⟨hrej, ?_⟩
    cases hc : sampleCustomer inp.customers d.custIdx with
    | error e =>
      rw [hc] at h
      replace h : (Except.error e : Except String (Option Row × EngState))
        = .ok (some r, s') := h
      exact absurd h (by simp)
    | ok customer =>
      rw [hc] at h
      replace h : (match selectMerchant inp.merchants customer (merchAttempts d) with
          | Except.error e => (Except.error e : Except String (Option Row × EngState))
          | Except.ok merchant0 =>
            Except.ok (some (mkRow i d customer (cascade inp s d customer merchant0)),
              updState s customer d.ts (cascade inp s d customer merchant0).merchant))
        = .ok (some r, s') := h
      cases hm : selectMerchant inp.merchants customer (merchAttempts d) with
      | error e =>
        rw [hm] at h
        replace h : (Except.error e : Except String (Option Row × EngState))
          = .ok (some r, s') := h
        exact absurd h (by simp)
      | ok merchant0 =>
        rw [hm] at h
        replace h : (Except.ok
            (some (mkRow i d customer (cascade inp s d customer merchant0)),
             updState s customer d.ts (cascade inp s d customer merchant0).merchant)
          : Except String (Option Row × EngState)) = .ok (some r, s') := h
        simp only [Except.ok.injEq, Prod.mk.injEq, Option.some.injEq] at h
        exact ⟨customer, merchant0, rfl, hm, h.1.symm, h.2.symm⟩

/-- Inversion for a non-emitting successful step: only the rejection
branch produces `none`, and it keeps the state. -/
lemma stepDraw_none {inp : EngineInput} {s : EngState} {i : ℕ} {d : Draw}
    {s' : EngState} (h : stepDraw inp s i d = .ok (none, s')) : s' = s := by
  unfold stepDraw at h
  split at h
  · replace h : (Except.ok (none, s) : Except String (Option Row × EngState))
      = .ok (none, s') := h
    simp only [Except.ok.injEq, Prod.mk.injEq] at h
    exact h.2.symm
  · cases hc : sampleCustomer inp.customers d.custIdx with
    | error e =>
      rw [hc] at h
      replace h : (Except.error e : Except String (Option Row × EngState))
        = .ok (none, s') := h
      exact absurd h (by simp)
    | ok customer =>
      rw [hc] at h
      replace h : (match selectMerchant inp.merchants customer (merchAttempts d) with
          | Except.error e => (Except.error e : Except String (Option Row × EngState))
          | Except.ok merchant0 =>
            Except.ok (some (mkRow i d customer (cascade inp s d customer merchant0)),
              updState s customer d.ts (cascade inp s d customer merchant0).merchant))
        = .ok (none, s') := h
      cases hm : selectMerchant inp.merchants customer (merchAttempts d) with
      | error e =>
        rw [hm] at h
        replace h : (Except.error e : Except String (Option Row × EngState))
          = .ok (none, s') := h
        exact absurd h (by simp)
      | ok merchant0 =>
        rw [hm] at h
        replace h : (Except.ok
            (some (mkRow i d customer (cascade inp s d customer merchant0)),
             updState s customer d.ts (cascade inp s d customer merchant0).merchant)
          : Except String (Option Row × EngState)) = .ok (none, s') := h
        exact absurd h (by simp)

/-- Any row property established by `stepDraw` emission holds for every
row of a run. -/
lemma engineGo_rows_forall {inp : EngineInput} {tape : ℕ → Draw} (P : Row → Prop)
    (hP : ∀ s i r s', stepDraw inp s i (tape i) = .ok (some r, s') → P r) :
    ∀ {is : List ℕ} {s : EngState} {rows : List Row} {s' : EngState},
      engineGo inp tape is s = .ok (rows, s') → ∀ r ∈ rows, P r
  | [], s, rows, s', h, r, hr => by
      rw [engineGo] at h
      replace h : (Except.ok ([], s) : Except String (List Row × EngState))
        = .ok (rows, s') := h
      simp only [Except.ok.injEq, Prod.mk.injEq] at h
      rw [← h.1] at hr
      simp at hr
  | i :: is, s, rows, s', h, r, hr => by
      rw [engineGo] at h
      cases hstep : stepDraw inp s i (tape i) with
      | error e =>
        rw [hstep] at h
        replace h : (Except.error e : Except String (List Row × EngState))
          = .ok (rows, s') := h
        exact absurd h (by simp)
      | ok p =>
        obtain ⟨r?, s1⟩ := p
        rw [hstep] at h
        replace h : (match engineGo inp tape is s1 with
            | Except.error e => (Except.error e : Except String (List Row × EngState))
            | Except.ok (rest, s2) => Except.ok (r?.toList ++ rest, s2))
          = .ok (rows, s') := h
        cases hrec : engineGo inp tape is s1 with
        | error e =>
          rw [hrec] at h
          replace h : (Except.error e : Except String (List Row × EngState))
            = .ok (rows, s') := h
          exact absurd h (by simp)
        | ok q =>
          obtain ⟨rest, s2⟩ := q
          rw [hrec] at h
          replace h : (Except.ok (r?.toList ++ rest, s2)
            : Except String (List Row × EngState)) = .ok (rows, s') := h
          simp only [Except.ok.injEq, Prod.mk.injEq] at h
          rw [← h.1] at hr
          rcases List.mem_append.mp hr with hr1 | hr2
          · cases r? with
            | none => simp at hr1
            | some r0 =>
              simp only [Option.toList_some, List.mem_singleton] at hr1
              subst hr1
              exact hP _ _ _ _ hstep
          · exact engineGo_rows_forall P hP hrec r hr2

lemma initState_inv : stateInv initState := by
  intro c h
  simp [initState] at h

lemma updState_inv {s : EngState} (customer : Customer) (ts : TimestampM)
    (merchant : Merchant) (h : stateInv s) :
    stateInv (updState s customer ts merchant) := by
  intro c hc
  unfold updState at hc ⊢
  by_cases he : c = customer.customer_id
  · simp [he]
  · simp only [he, if_false] at hc ⊢
    exact h c hc

lemma stepDraw_state_inv {inp : EngineInput} {s : EngState} {i : ℕ} {d : Draw}
    {x : Option Row} {s' : EngState}
    (h : stepDraw inp s i d = .ok (x, s')) (hs : stateInv s) : stateInv s' := by
  cases x with
  | none => rw [stepDraw_none h]; exact hs
  | some r =>
    obtain ⟨-, customer, merchant0, -, -, -, hs'⟩ := stepDraw_emit h
    rw [hs']
    exact updState_inv _ _ _ hs

/-- No reachable state can take the geographic-anomaly branch: every
row of a run started in an invariant state has another tag. -/
lemma engineGo_no_geo {inp : EngineInput} {tape : ℕ → Draw} :
    ∀ {is : List ℕ} {s : EngState} {rows : List Row} {s' : EngState},
      stateInv s → engineGo inp tape is s = .ok (rows, s') →
      ∀ r ∈ rows, r.fraud_type ≠ "geographic_anomaly"
  | [], s, rows, s', hs, h, r, hr => by
      rw [engineGo] at h
      replace h : (Except.ok ([], s) : Except String (List Row × EngState))
        = .ok (rows, s') := h
      simp only [Except.ok.injEq, Prod.mk.injEq] at h
      rw [← h.1] at hr
      simp at hr
  | i :: is, s, rows, s', hs, h, r, hr => by
      rw [engineGo] at h
      cases hstep : stepDraw inp s i (tape i) with
      | error e =>
        rw [hstep] at h
        replace h : (Except.error e : Except String (List Row × EngState))
          = .ok (rows, s') := h
        exact absurd h (by simp)
      | ok p =>
        obtain ⟨r?, s1⟩ := p
        rw [hstep] at h
        replace h : (match engineGo inp tape is s1 with
            | Except.error e => (Except.error e : Except String (List Row × EngState))
            | Except.ok (rest, s2) => Except.ok (r?.toList ++ rest, s2))
          = .ok (rows, s') := h
        cases hrec : engineGo inp tape is s1 with
        | error e =>
          rw [hrec] at h
          replace h : (Except.error e : Except String (List Row × EngState))
            = .ok (rows, s') := h
          exact absurd h (by simp)
        | ok q =>
          obtain ⟨rest, s2⟩ := q
          rw [hrec] at h
          replace h : (Except.ok (r?.toList ++ rest, s2)
            : Except String (List Row × EngState)) = .ok (rows, s') := h
          simp only [Except.ok.injEq, Prod.mk.injEq] at h
          rw [← h.1] at hr
          rcases List.mem_append.mp hr with hr1 | hr2
          · cases r? with
            | none => simp at hr1
            | some r0 =>
              simp only [Option.toList_some, List.mem_singleton] at hr1
              subst hr1
              obtain ⟨-, customer, merchant0, -, -, hrow, -⟩ := stepDraw_emit hstep
              rw [hrow]
              simp only [mkRow]
              exact cascade_not_geo _ _ (hs customer.customer_id)
          · exact engineGo_no_geo (stepDraw_state_inv hstep hs) hrec r hr2

/-- The emitted ids, in order, form a sublist of the shifted draw
counters. -/
lemma engineGo_ids_sublist {inp : EngineInput} {tape : ℕ → Draw} :
    ∀ {is : List ℕ} {s : EngState} {rows : List Row} {s' : EngState},
      engineGo inp tape is s = .ok (rows, s') →
      (rows.map Row.transaction_id).Sublist (is.map (· + 1))
  | [], s, rows, s', h => by
      rw [engineGo] at h
      replace h : (Except.ok ([], s) : Except String (List Row × EngState))
        = .ok (rows, s') := h
      simp only [Except.ok.injEq, Prod.mk.injEq] at h
      rw [← h.1]
      simp
  | i :: is, s, rows, s', h => by
      rw [engineGo] at h
      cases hstep : stepDraw inp s i (tape i) with
      | error e =>
        rw [hstep] at h
        replace h : (Except.error e : Except String (List Row × EngState))
          = .ok (rows, s') := h
        exact absurd h (by simp)
      | ok p =>
        obtain ⟨r?, s1⟩ := p
        rw [hstep] at h
        replace h : (match engineGo inp tape is s1 with
            | Except.error e => (Except.error e : Except String (List Row × EngState))
            | Except.ok (rest, s2) => Except.ok (r?.toList ++ rest, s2))
          = .ok (rows, s') := h
        cases hrec : engineGo inp tape is s1 with
        | error e =>
          rw [hrec] at h
          replace h : (Except.error e : Except String (List Row × EngState))
            = .ok (rows, s') := h
          exact absurd h (by simp)
        | ok q =>
          obtain ⟨rest, s2⟩ := q
          rw [hrec] at h
          replace h : (Except.ok (r?.toList ++ rest, s2)
            : Except String (List Row × EngState)) = .ok (rows, s') := h
          simp only [Except.ok.injEq, Prod.mk.injEq] at h
          rw [← h.1]
          have ih := engineGo_ids_sublist hrec
          cases r? with
          | none =>
            simp only [Option.toList_none, List.nil_append, List.map_cons]
            exact ih.cons _
          | some r0 =>
            obtain ⟨-, customer, merchant0, -, -, hrow, -⟩ := stepDraw_emit hstep
            simp only [Option.toList_some, List.singleton_append, List.map_cons]
            rw [hrow]
            simp only [mkRow]
            exact ih.cons₂ _

/-- Every emitted row's id is `j + 1` for an accepted draw counter `j`
of the run. -/
lemma engineGo_ids_accepted {inp : EngineInput} {tape : ℕ → Draw} :
    ∀ {is : List ℕ} {s : EngState} {rows : List Row} {s' : EngState},
      engineGo inp tape is s = .ok (rows, s') →
      ∀ r ∈ rows, ∃ j ∈ is, r.transaction_id = j + 1 ∧
        ¬ clamp01 (tape j).seasonRoll > get_seasonal_factor (tape j).ts / 2
  | [], s, rows, s', h, r, hr => by
      rw [engineGo] at h
      replace h : (Except.ok ([], s) : Except String (List Row × EngState))
        = .ok (rows, s') := h
      simp only [Except.ok.injEq, Prod.mk.injEq] at h
      rw [← h.1] at hr
      simp at hr
  | i :: is, s, rows, s', h, r, hr => by
      rw [engineGo] at h
      cases hstep : stepDraw inp s i (tape i) with
      | error e =>
        rw [hstep] at h
        replace h : (Except.error e : Except String (List Row × EngState))
          = .ok (rows, s') := h
        exact absurd h (by simp)
      | ok p =>
        obtain ⟨r?, s1⟩ := p
        rw [hstep] at h
        replace h : (match engineGo inp tape is s1 with
            | Except.error e => (Except.error e : Except String (List Row × EngState))
            | Except.ok (rest, s2) => Except.ok (r?.toList ++ rest, s2))
          = .ok (rows, s') := h
        cases hrec : engineGo inp tape is s1 with
        | error e =>
          rw [hrec] at h
          replace h : (Except.error e : Except String (List Row × EngState))
            = .ok (rows, s') := h
          exact absurd h (by simp)
        | ok q =>
          obtain ⟨rest, s2⟩ := q
          rw [hrec] at h
          replace h : (Except.ok (r?.toList ++ rest, s2)
            : Except String (List Row × EngState)) = .ok (rows, s') := h
          simp only [Except.ok.injEq, Prod.mk.injEq] at h
          rw [← h.1] at hr
          rcases List.mem_append.mp hr with hr1 | hr2
          · cases r? with
            | none => simp at hr1
            | some r0 =>
              simp only [Option.toList_some, List.mem_singleton] at hr1
              subst hr1
              obtain ⟨hacc, customer, merchant0, -, -, hrow, -⟩ := stepDraw_emit hstep
              refine ⟨i, by simp, ?_, hacc⟩
              rw [hrow]
              simp [mkRow]
          · obtain ⟨j, hj, hje, hjacc⟩ := engineGo_ids_accepted hrec r hr2
            exact ⟨j, by simp [hj], hje, hjacc⟩

/-- Inversion of a successful full generation: the loop succeeded and
produced a nonempty row list (the statistics epilogue raises on an
empty frame). -/
lemma generate_ok_inv {inp : EngineInput} {n : ℕ} {tape : ℕ → Draw} {rows : List Row}
    (h : generate_transactions_advanced inp n tape = .ok rows) :
    ∃ s', engineGo inp tape (List.range n) initState = .ok (rows, s') ∧ rows ≠ [] := by
  unfold generate_transactions_advanced at h
  cases hg : engineGo inp tape (List.range n) initState with
  | error e =>
    rw [hg] at h
    replace h : (Except.error e : Except String (List Row)) = .ok rows := h
    exact absurd h (by simp)
  | ok q =>
    obtain ⟨rows0, s'⟩ := q
    rw [hg] at h
    replace h : (if rows0.isEmpty
        then (Except.error "KeyError: is_fraud (empty result frame)" : Except String (List Row))
        else .ok rows0) = .ok rows := h
    split at h
    · exact absurd h (by simp)
    · rename_i hne
      simp only [Except.ok.injEq] at h
      subst h
      refine ⟨s', rfl, ?_⟩
      simpa [List.isEmpty_iff] using hne

/-- Row-level consequences of one emission: labels, tag membership,
amount bounds, and foreign keys. -/
lemma step_row_props {inp : EngineInput} {tape : ℕ → Draw} :
    ∀ (s : EngState) (i : ℕ) (r : Row) (s' : EngState),
      stepDraw inp s i (tape i) = .ok (some r, s') →
      (r.is_fraud = 1 ↔ r.fraud_type ≠ "legit") ∧
      (r.is_fraud = 1 ↔ r.detection_delay_days ≠ none) ∧
      r.fraud_type ∈ fraudTypeValues ∧
      (r.fraud_type = "card_testing" → 1/2 ≤ r.amount ∧ r.amount ≤ 499/100) ∧
      (r.fraud_type = "account_takeover" → 1000 ≤ r.amount ∧ r.amount ≤ 5000) ∧
      (∃ c ∈ inp.customers, r.customer_id = c.customer_id) ∧
      (∃ m ∈ inp.merchants, r.merchant_id = m.merchant_id) := by
  intro s i r s' h
  obtain ⟨-, customer, merchant0, hc, hm, hrow, -⟩ := stepDraw_emit h
  have hcmem := sampleCustomer_ok_mem hc
  have hmmem := selectMerchant_ok_mem hm
  have hdec := cascade_merchant_mem s (tape i) customer hmmem
  subst hrow
  simp only [mkRow]
  obtain ⟨h1, h2⟩ := cascade_labels inp s (tape i) customer merchant0
  exact ⟨h1, h2, cascade_fraud_type_mem inp s (tape i) customer merchant0,
    cascade_card_testing_amount inp s (tape i) customer merchant0,
    cascade_ato_amount inp s (tape i) customer merchant0,
    ⟨customer, hcmem, rfl⟩,
    ⟨(cascade inp s (tape i) customer merchant0).merchant, hdec, rfl⟩⟩

/-- A strictly increasing list bounded below pointwise grows at least
linearly. -/
lemma pairwise_lt_lower_bound :
    ∀ (l : List ℕ) (m : ℕ), l.Pairwise (· < ·) → (∀ x ∈ l, m ≤ x) →
      ∀ k (hk : k < l.length), m + k ≤ l.get ⟨k, hk⟩
  | [], _, _, _, k, hk => absurd hk (by simp)
  | a :: l, m, _, hm, 0, _ => by simpa using hm a (by simp)
  | a :: l, m, hp, hm, Nat.succ k, hk => by
      obtain ⟨ha, hp'⟩ := List.pairwise_cons.mp hp
      have hm' : ∀ x ∈ l, m + 1 ≤ x := fun x hx => by
        have h1 := ha x hx
        have h2 := hm a (by simp)
        omega
      have IH := pairwise_lt_lower_bound l (m + 1) hp' hm' k (by simpa using hk)
      simp only [List.get_cons_succ] at IH ⊢
      omega

/-- C1: contrary to the claim, a customer whose prior transaction is 5
minutes old or older does *not* remain eligible for the
geographic-anomaly branch: the velocity `elif` captures every customer
with a prior transaction, and a recorded usual country implies a
recorded prior transaction, so the geographic-anomaly branch is dead
code — no emitted transaction of any run is ever tagged
`geographic_anomaly`. -/
theorem geographic_anomaly_never_emitted {inp : EngineInput} {n : ℕ}
    {tape : ℕ → Draw} {rows : List Row}
    (h : generate_transactions_advanced inp n tape = .ok rows) :
    ∀ r ∈ rows, r.fraud_type ≠ "geographic_anomaly" := by
  obtain ⟨s', hg, -⟩ := generate_ok_inv h
  exact engineGo_no_geo initState_inv hg

/-- C2: for every emitted transaction row, `is_fraud = 1` iff
`fraud_type ≠ "legit"` iff the detection delay is present, and the tag
is one of the six declared values. -/
theorem transaction_label_consistency {inp : EngineInput} {n : ℕ}
    {tape : ℕ → Draw} {rows : List Row}
    (h : generate_transactions_advanced inp n tape = .ok rows) :
    ∀ r ∈ rows,
      (r.is_fraud = 1 ↔ r.fraud_type ≠ "legit") ∧
      (r.is_fraud = 1 ↔ r.detection_delay_days ≠ none) ∧
      r.fraud_type ∈ fraudTypeValues := by
  obtain ⟨s', hg, -⟩ := generate_ok_inv h
  intro r hr
  have hp := engineGo_rows_forall _ step_row_props hg r hr
  exact ⟨hp.1, hp.2.1, hp.2.2.1⟩

/-- C3: a draw rejected by the seasonality acceptance test emits no row
and leaves the per-customer runtime state unchanged, and consequently a
run's emitted row count never exceeds the requested draw count. -/
theorem seasonal_rejection_frame :
    (∀ (inp : EngineInput) (s : EngState) (i : ℕ) (d : Draw),
      clamp01 d.seasonRoll > get_seasonal_factor d.ts / 2 →
      stepDraw inp s i d = .ok (none, s)) ∧
    (∀ (inp : EngineInput) (n : ℕ) (tape : ℕ → Draw) (rows : List Row),
      generate_transactions_advanced inp n tape = .ok rows → rows.length ≤ n) := by
  constructor
  · intro inp s i d h
    exact stepDraw_rejected h
  · intro inp n tape rows h
    obtain ⟨s', hg, -⟩ := generate_ok_inv h
    have hsub := (engineGo_ids_sublist hg).length_le
    simpa using hsub

/-- C5: card-testing amounts lie in [0.50, 4.99] and account-takeover
amounts lie in [1000, 5000], the optional rounding to the nearest
hundred included. -/
theorem fraud_amount_bounds {inp : EngineInput} {n : ℕ}
    {tape : ℕ → Draw} {rows : List Row}
    (h : generate_transactions_advanced inp n tape = .ok rows) :
    ∀ r ∈ rows,
      (r.fraud_type = "card_testing" → 1/2 ≤ r.amount ∧ r.amount ≤ 499/100) ∧
      (r.fraud_type = "account_takeover" → 1000 ≤ r.amount ∧ r.amount ≤ 5000) := by
  obtain ⟨s', hg, -⟩ := generate_ok_inv h
  intro r hr
  have hp := engineGo_rows_forall _ step_row_props hg r hr
  exact ⟨hp.2.2.2.1, hp.2.2.2.2.1⟩

/-- C6: transaction generation over an empty Customer or Merchant table
always fails with an error (either the sampling raises, or the
statistics epilogue raises on the empty result frame); it never returns
a table. -/
theorem empty_tables_halt (inp : EngineInput) (n : ℕ) (tape : ℕ → Draw)
    (hempty : inp.customers = [] ∨ inp.merchants = []) (hn : 0 < n) :
    ∃ e, generate_transactions_advanced inp n tape = .error e := by
  cases hres : generate_transactions_advanced inp n tape with
  | error e => exact ⟨e, rfl⟩
  | ok rows =>
    exfalso
    obtain ⟨s', hg, hne⟩ := generate_ok_inv hres
    obtain ⟨r, hr⟩ := List.exists_mem_of_ne_nil rows hne
    have hP := engineGo_rows_forall
      (fun _ => inp.customers ≠ [] ∧ inp.merchants ≠ [])
      (fun s i r s' hstep => by
        obtain ⟨-, c, m0, hc, hm, -, -⟩ := stepDraw_emit hstep
        exact ⟨sampleCustomer_ok_ne_nil hc, selectMerchant_ok_ne_nil hm⟩)
      hg r hr
    rcases hempty with he | he
    · exact hP.1 he
    · exact hP.2 he

/-- C10: emitted transaction ids are pairwise distinct and strictly
increasing in emission order, each id is at least its emission rank + 1,
and every draw rejected by the seasonality test leaves a gap — no row
carries that draw's id. -/
theorem transaction_ids_strictly_increasing {inp : EngineInput} {n : ℕ}
    {tape : ℕ → Draw} {rows : List Row}
    (h : generate_transactions_advanced inp n tape = .ok rows) :
    (rows.map Row.transaction_id).Pairwise (· < ·) ∧
    (∀ k (hk : k < rows.length), k + 1 ≤ (rows.get ⟨k, hk⟩).transaction_id) ∧
    (∀ i, i < n →
      clamp01 (tape i).seasonRoll > get_seasonal_factor (tape i).ts / 2 →
      ∀ r ∈ rows, r.transaction_id ≠ i + 1) := by
  obtain ⟨s', hg, -⟩ := generate_ok_inv h
  have hsub := engineGo_ids_sublist hg
  have hrange : ((List.range n).map (· + 1)).Pairwise (· < ·) := by
    refine List.Pairwise.map _ ?_ (List.pairwise_lt_range n)
    intro a b hab
    omega
  have hpw : (rows.map Row.transaction_id).Pairwise (· < ·) :=
    List.Pairwise.sublist hsub hrange
  refine ⟨hpw, ?_, ?_⟩
  · have hlow : ∀ x ∈ rows.map Row.transaction_id, 1 ≤ x := by
      intro x hx
      obtain ⟨r, hr, rfl⟩ := List.mem_map.mp hx
      obtain ⟨j, -, hje, -⟩ := engineGo_ids_accepted hg r hr
      omega
    intro k hk
    have hk' : k < (rows.map Row.transaction_id).length := by simpa using hk
    have hb := pairwise_lt_lower_bound _ 1 hpw hlow k hk'
    have hb2 : 1 + k ≤ Row.transaction_id (rows.get ⟨k, hk⟩) := by
      simpa [List.get_map] using hb
    omega
  · intro i hi hrej r hr hid
    obtain ⟨j, hj, hje, hjacc⟩ := engineGo_ids_accepted hg r hr
    have hji : j = i := by omega
    subst hji
    exact hjacc hrej

lemma devStep_txn_id (t : Row) (d : DevDraw) (s : DevState) :
    (devStep t d s).1.transaction_id = t.transaction_id := rfl

/-- The usage map after one device step: exactly the emitted
(device id, customer id) observation is inserted. -/
lemma devStep_usage (t : Row) (d : DevDraw) (s : DevState) :
    (devStep t d s).2.usage = fun dvc =>
      if dvc = (devStep t d s).1.device_id
      then insertDistinct (s.usage ((devStep t d s).1.device_id)) t.customer_id
      else s.usage dvc := rfl

lemma insertDistinct_mem (l : List String) (c0 c : String) :
    c ∈ insertDistinct l c0 ↔ c ∈ l ∨ c = c0 := by
  unfold insertDistinct
  split
  · rename_i hin
    constructor
    · exact Or.inl
    · rintro (h | h)
      · exact h
      · rw [h]; exact hin
  · simp [or_comm]

lemma insertDistinct_nodup (l : List String) (c0 : String) (h : l.Nodup) :
    (insertDistinct l c0).Nodup := by
  unfold insertDistinct
  split
  · exact h
  · rename_i hnin
    exact List.Nodup.cons hnin h

/-- The pool is append-only in one device step. -/
lemma devStep_pool_extend (t : Row) (d : DevDraw) (s : DevState) :
    ∃ rest, (devStep t d s).2.pool = s.pool ++ rest := by
  simp only [devStep]
  by_cases hA : t.fraud_type = "account_takeover" ∧ clamp01 d.atoShareRoll < 3/10
  · by_cases hR : s.pool ≠ [] ∧ clamp01 d.reuseRoll < 3/5
    · exact ⟨[], by simp [hA, hR]⟩
    · exact ⟨["DEV_FRAUD_" ++ padNum 5 s.pool.length], by simp [hA, hR]⟩
  · exact ⟨[], by simp [hA]⟩

lemma devGo_length (tape : ℕ → DevDraw) :
    ∀ (txns : List Row) (k : ℕ) (s : DevState),
      (devGo tape txns k s).1.length = txns.length
  | [], _, _ => rfl
  | t :: ts, k, s => by
      simp only [devGo]
      simpa using devGo_length tape ts (k + 1) ((devStep t (tape k) s).2)

/-- The pool is append-only over a whole device pass. -/
lemma devGo_pool_extend (tape : ℕ → DevDraw) :
    ∀ (txns : List Row) (k : ℕ) (s : DevState),
      ∃ rest, (devGo tape txns k s).2.pool = s.pool ++ rest
  | [], _, _ => ⟨[], by simp [devGo]⟩
  | t :: ts, k, s => by
      simp only [devGo]
      obtain ⟨r1, h1⟩ := devStep_pool_extend t (tape k) s
      obtain ⟨r2, h2⟩ := devGo_pool_extend tape ts (k + 1) ((devStep t (tape k) s).2)
      exact ⟨r1 ++ r2, by simp [h2, h1]⟩

/-- Every emitted device row refers to the transaction it was built
from. -/
lemma devGo_txn_ids (tape : ℕ → DevDraw) :
    ∀ (txns : List Row) (k : ℕ) (s : DevState),
      ∀ dr ∈ (devGo tape txns k s).1, ∃ t ∈ txns, dr.transaction_id = t.transaction_id
  | [], _, _, dr, hdr => by simp [devGo] at hdr
  | t :: ts, k, s, dr, hdr => by
      simp only [devGo, List.mem_cons] at hdr
      rcases hdr with h | h
      · exact ⟨t, by simp, by rw [h, devStep_txn_id]⟩
      · obtain ⟨t1, ht1, he⟩ := devGo_txn_ids tape ts (k + 1) _ dr h
        exact ⟨t1, by simp [ht1], he⟩

/-- Characterisation of the final usage map: a duplicate-free list
whose members are exactly the customers observed against the device id
during the pass. -/
lemma devGo_usage_spec (tape : ℕ → DevDraw) :
    ∀ (txns : List Row) (k : ℕ) (s : DevState),
      (∀ dvc, (s.usage dvc).Nodup) →
      ∀ dvc, ((devGo tape txns k s).2.usage dvc).Nodup ∧
        ∀ c, c ∈ (devGo tape txns k s).2.usage dvc ↔
          c ∈ s.usage dvc ∨ (dvc, c) ∈ rawPairs (devGo tape txns k s).1 txns
  | [], _, s, hnd, dvc => by
      simp only [devGo]
      exact ⟨hnd dvc, by simp [rawPairs]⟩
  | t :: ts, k, s, hnd, dvc => by
      simp only [devGo]
      have hstep := devStep_usage t (tape k) s
      have hnd1 : ∀ d1, ((devStep t (tape k) s).2.usage d1).Nodup := by
        intro d1
        rw [hstep]
        by_cases he : d1 = (devStep t (tape k) s).1.device_id
        · simp only [he, if_pos rfl]
          exact insertDistinct_nodup _ _ (hnd _)
        · simp only [if_neg he]
          exact hnd d1
      have IH := devGo_usage_spec tape ts (k + 1) ((devStep t (tape k) s).2) hnd1 dvc
      refine ⟨IH.1, fun c => ?_⟩
      rw [IH.2 c, hstep]
      have hpairs : rawPairs ((devStep t (tape k) s).1 ::
          (devGo tape ts (k + 1) ((devStep t (tape k) s).2)).1) (t :: ts) =
          ((devStep t (tape k) s).1.device_id, t.customer_id) ::
          rawPairs (devGo tape ts (k + 1) ((devStep t (tape k) s).2)).1 ts := by
        simp [rawPairs]
      rw [hpairs]
      by_cases he : dvc = (devStep t (tape k) s).1.device_id
      · subst he
        simp only [eq_self_iff_true, if_true, insertDistinct_mem, List.mem_cons,
          Prod.mk.injEq, true_and]
        tauto
      · simp only [if_neg he, List.mem_cons, Prod.mk.injEq]
        have hne : ¬(dvc = (devStep t (tape k) s).1.device_id ∧ c = t.customer_id) := by
          intro hcon
          exact he hcon.1
        tauto

lemma get_pair_mem_zip {α β : Type} :
    ∀ (l1 : List α) (l2 : List β) (k : ℕ) (h1 : k < l1.length) (h2 : k < l2.length),
      (l1.get ⟨k, h1⟩, l2.get ⟨k, h2⟩) ∈ l1.zip l2
  | [], _, k, h1, _ => absurd h1 (by simp)
  | _ :: _, [], k, _, h2 => absurd h2 (by simp)
  | a :: l1, b :: l2, 0, _, _ => by simp
  | a :: l1, b :: l2, Nat.succ k, h1, h2 => by
      simp only [List.zip_cons_cons, List.get_cons_succ, List.mem_cons]
      exact Or.inr (get_pair_mem_zip l1 l2 k (by simpa using h1) (by simpa using h2))

lemma clamp01_zero : clamp01 0 = 0 := by
  rw [clamp01, min_eq_right (by norm_num : (0:ℚ) ≤ 1), max_self]

lemma clamp01_one : clamp01 1 = 1 := by
  rw [clamp01, min_self, max_eq_right (by norm_num : (0:ℚ) ≤ 1)]

/-- Unfolding of the loop on a cons cell. -/
lemma engineGo_cons_eq (inp : EngineInput) (tape : ℕ → Draw) (i : ℕ)
    (is : List ℕ) (s : EngState) :
    engineGo inp tape (i :: is) s =
      match stepDraw inp s i (tape i) with
      | .error e => .error e
      | .ok (r?, s') =>
        match engineGo inp tape is s' with
        | .error e => .error e
        | .ok (rest, s'') => .ok (r?.toList ++ rest, s'') := rfl

/-- Forward evaluation of one accepted step from proven sample facts. -/
lemma stepDraw_eval (inp : EngineInput) (s : EngState) (i : ℕ) (d : Draw)
    (customer : Customer) (merchant0 : Merchant)
    (hrej : ¬ clamp01 d.seasonRoll > get_seasonal_factor d.ts / 2)
    (hsamp : sampleCustomer inp.customers d.custIdx = .ok customer)
    (hsel : selectMerchant inp.merchants customer (merchAttempts d) = .ok merchant0) :
    stepDraw inp s i d =
      .ok (some (mkRow i d customer (cascade inp s d customer merchant0)),
        updState s customer d.ts (cascade inp s d customer merchant0).merchant) := by
  unfold stepDraw
  rw [if_neg hrej, hsamp]
  show (match selectMerchant inp.merchants customer (merchAttempts d) with
    | Except.error e => (Except.error e : Except String (Option Row × EngState))
    | Except.ok m0 =>
      Except.ok (some (mkRow i d customer (cascade inp s d customer m0)),
        updState s customer d.ts (cascade inp s d customer m0).merchant)) = _
  rw [hsel]

lemma hsampW (j : ℕ) : sampleCustomer inpW.customers j = .ok cW := by
  norm_num [inpW, sampleCustomer, sampleList]

lemma hselW (d : Draw) (hd : ∀ k, d.merchRoll k = 0) :
    selectMerchant inpW.merchants cW (merchAttempts d) = .ok mFR := by
  norm_num [inpW, merchAttempts, selectMerchant, sampleMerchant, sampleList,
    is_customer_merchant_compatible, compatibilityMatrix, cW, mFR, hd, clamp01_zero]

lemma hrejW : ¬ clamp01 dW.seasonRoll > get_seasonal_factor dW.ts / 2 := by
  norm_num [dW, tsW, clamp01_zero, get_seasonal_factor, dayWeight, hourFactor,
    monthFactor]

lemma hgenW : generate_transactions_advanced inpW 1 tapeW = .ok [rowW] := by
  have hrun : engineGo inpW tapeW [0] initState =
      .ok ([rowW], updState initState cW dW.ts (cascade inpW initState dW cW mFR).merchant) := by
    rw [engineGo_cons_eq, show tapeW 0 = dW from rfl,
      stepDraw_eval inpW initState 0 dW cW mFR hrejW (hsampW dW.custIdx)
        (hselW dW (fun _ => rfl))]
    rfl
  unfold generate_transactions_advanced
  rw [show List.range 1 = [0] from rfl, hrun]
  rfl

lemma hrejCT : ¬ clamp01 dCT.seasonRoll > get_seasonal_factor dCT.ts / 2 := by
  norm_num [dCT, dW, tsW, clamp01_zero, get_seasonal_factor, dayWeight,
    hourFactor, monthFactor]

lemma hgenCT : generate_transactions_advanced inpW 1 tapeCT = .ok [rowCT] := by
  have hrun : engineGo inpW tapeCT [0] initState =
      .ok ([rowCT], updState initState cW dCT.ts (cascade inpW initState dCT cW mFR).merchant) := by
    rw [engineGo_cons_eq, show tapeCT 0 = dCT from rfl,
      stepDraw_eval inpW initState 0 dCT cW mFR hrejCT (hsampW dCT.custIdx)
        (hselW dCT (fun _ => rfl))]
    rfl
  unfold generate_transactions_advanced
  rw [show List.range 1 = [0] from rfl, hrun]
  rfl

lemma rowCT_card_testing : rowCT.is_fraud = 1 ∧ rowCT.fraud_type = "card_testing" := by
  rw [rowCT]
  constructor
  · show (cascade inpW initState dCT cW mFR).is_fraud = 1
    norm_num [cascade, dCT, dW, clamp01_zero]
  · show (cascade inpW initState dCT cW mFR).fraud_type = "card_testing"
    norm_num [cascade, dCT, dW, clamp01_zero]

lemma rowW_legit : rowW.is_fraud = 0 ∧ rowW.fraud_type = "legit" := by
  rw [rowW]
  constructor
  · show (cascade inpW initState dW cW mFR).is_fraud = 0
    norm_num [cascade, dW, clamp01_one, inpW, cW, mFR, initState]
  · show (cascade inpW initState dW cW mFR).fraud_type = "legit"
    norm_num [cascade, dW, clamp01_one, inpW, cW, mFR, initState]

lemma hrej10 : clamp01 (tape10 0).seasonRoll >
    get_seasonal_factor (tape10 0).ts / 2 := by
  norm_num [tape10, dRej, dW, tsW, clamp01_one, get_seasonal_factor, dayWeight,
    hourFactor, monthFactor]

lemma hgen10 : generate_transactions_advanced inpW 2 tape10 = .ok [rowX] := by
  have hrun : engineGo inpW tape10 [0, 1] initState =
      .ok ([rowX], updState initState cW dW.ts (cascade inpW initState dW cW mFR).merchant) := by
    rw [engineGo_cons_eq, stepDraw_rejected hrej10]
    show (match engineGo inpW tape10 [1] initState with
      | Except.error e => (Except.error e : Except String (List Row × EngState))
      | Except.ok (rest, s2) => Except.ok ((none : Option Row).toList ++ rest, s2)) = _
    rw [engineGo_cons_eq, show tape10 1 = dW from rfl,
      stepDraw_eval inpW initState 1 dW cW mFR hrejW (hsampW dW.custIdx)
        (hselW dW (fun _ => rfl))]
    rfl
  unfold generate_transactions_advanced
  rw [show List.range 2 = [0, 1] from rfl, hrun]
  rfl

/-- Witness for C1: a concrete run emits a row, and no row of it is
tagged `geographic_anomaly`. -/
theorem geographic_anomaly_never_emitted_witness :
    generate_transactions_advanced inpW 1 tapeW = .ok [rowW] ∧
    ∀ r ∈ [rowW], r.fraud_type ≠ "geographic_anomaly" :=
  ⟨hgenW, geographic_anomaly_never_emitted hgenW⟩

/-- Witness for C2 at a concrete run. -/
theorem transaction_label_consistency_witness :
    generate_transactions_advanced inpW 1 tapeW = .ok [rowW] ∧
    ∀ r ∈ [rowW],
      (r.is_fraud = 1 ↔ r.fraud_type ≠ "legit") ∧
      (r.is_fraud = 1 ↔ r.detection_delay_days ≠ none) ∧
      r.fraud_type ∈ fraudTypeValues :=
  ⟨hgenW, transaction_label_consistency hgenW⟩

/-- Witness for C3: a concretely rejected draw keeps the state, and a
concrete run stays within the draw budget. -/
theorem seasonal_rejection_frame_witness :
    stepDraw inpW initState 0 dRej = .ok (none, initState) ∧
    ([rowW] : List Row).length ≤ 1 :=
  ⟨seasonal_rejection_frame.1 inpW initState 0 dRej hrej10,
   seasonal_rejection_frame.2 inpW 1 tapeW [rowW] hgenW⟩

/-- Witness for C5 at a concrete run that emits a card-testing row. -/
theorem fraud_amount_bounds_witness :
    generate_transactions_advanced inpW 1 tapeCT = .ok [rowCT] ∧
    rowCT.fraud_type = "card_testing" ∧
    ∀ r ∈ [rowCT],
      (r.fraud_type = "card_testing" → 1/2 ≤ r.amount ∧ r.amount ≤ 499/100) ∧
      (r.fraud_type = "account_takeover" → 1000 ≤ r.amount ∧ r.amount ≤ 5000) :=
  ⟨hgenCT, rowCT_card_testing.2, fraud_amount_bounds hgenCT⟩

/-- Witness for C6: the empty customer table makes a concrete run
fail. -/
theorem empty_tables_halt_witness :
    ∃ e, generate_transactions_advanced
      { customers := [], merchants := [mFR], compromised := [], fraudsters := [] }
      1 tapeW = .error e :=
  empty_tables_halt _ 1 tapeW (Or.inl rfl) (by norm_num)

/-- Witness for C10 at a run whose first draw is rejected: the single
emitted row exists, ids are increasing, and id 1 is skipped. -/
theorem transaction_ids_strictly_increasing_witness :
    generate_transactions_advanced inpW 2 tape10 = .ok [rowX] ∧
    (([rowX].map Row.transaction_id).Pairwise (· < ·)) ∧
    0 + 1 ≤ ([rowX].get ⟨0, by norm_num⟩).transaction_id ∧
    rowX.transaction_id ≠ 0 + 1 := by
  have h := transaction_ids_strictly_increasing hgen10
  exact ⟨hgen10, h.1, h.2.1 0 (by norm_num),
    h.2.2 0 (by norm_num) hrej10 rowX (by simp)⟩

lemma mem_enumFrom_snd {α : Type} :
    ∀ (l : List α) (n : ℕ) (p : ℕ × α), p ∈ l.enumFrom n → p.2 ∈ l
  | [], _, _, h => by simp at h
  | a :: l, n, p, h => by
      simp only [List.enumFrom_cons, List.mem_cons] at h
      rcases h with h | h
      · simp [h]
      · exact List.mem_cons_of_mem _ (mem_enumFrom_snd l (n + 1) p h)

/-- Every alert is `mkAlert` of a sampled transaction. -/
lemma alert_mem_inv {frSel lgSel : List Row} {tape : ℕ → AlertDraw} {a : Alert}
    (h : a ∈ generate_fraud_alerts_history frSel lgSel tape) :
    ∃ k t, t ∈ frSel ++ lgSel ∧ a = mkAlert k t (tape k) := by
  unfold generate_fraud_alerts_history at h
  obtain ⟨p, hp, hpa⟩ := List.mem_map.mp h
  exact ⟨p.1, p.2, mem_enumFrom_snd _ 0 p hp, hpa.symm⟩

lemma alerts_length (frSel lgSel : List Row) (tape : ℕ → AlertDraw) :
    (generate_fraud_alerts_history frSel lgSel tape).length =
      frSel.length + lgSel.length := by
  unfold generate_fraud_alerts_history
  simp

lemma alerts_map_tid (frSel lgSel : List Row) (tape : ℕ → AlertDraw) :
    (generate_fraud_alerts_history frSel lgSel tape).map Alert.transaction_id
      = (frSel ++ lgSel).map Row.transaction_id := by
  unfold generate_fraud_alerts_history
  rw [List.map_map]
  have hc : (Alert.transaction_id ∘ fun p : ℕ × Row => mkAlert p.1 p.2 (tape p.1))
      = (Row.transaction_id ∘ Prod.snd) := rfl
  rw [hc, ← List.map_map, List.enum_map_snd]

/-- Under well-formed labels, the fraud rows and the legitimate rows
partition the table. -/
lemma fraud_legit_perm {txns : List Row}
    (hb : ∀ t ∈ txns, t.is_fraud = 0 ∨ t.is_fraud = 1) :
    (fraudRows txns ++ legitRows txns).Perm txns := by
  have hcongr : legitRows txns =
      txns.filter (fun t => !(decide (t.is_fraud = 1))) := by
    unfold legitRows
    refine List.filter_congr ?_
    intro t ht
    rcases hb t ht with h | h <;> simp [h]
  rw [hcongr]
  exact List.filter_append_perm _ txns

lemma pyRound_le_add_half (q : ℚ) : ((pyRound q : ℤ) : ℚ) ≤ q + 1/2 := by
  have hfl := Int.floor_le q
  simp only [pyRound]
  split_ifs with h1 h2 h3
  · linarith
  · push_cast
    linarith
  · linarith
  · push_cast
    linarith

lemma sampleSize_65_lt {f : ℕ} (hf : 2 ≤ f) : sampleSize (13/20) f < f := by
  have h1 := pyRound_le_add_half ((13 : ℚ)/20 * f)
  have hfq : (2 : ℚ) ≤ (f : ℚ) := by exact_mod_cast hf
  have h2 : (13 : ℚ)/20 * f + 1/2 < (f : ℚ) := by nlinarith
  have h3 : pyRound ((13 : ℚ)/20 * f) < (f : ℤ) := by
    exact_mod_cast lt_of_le_of_lt h1 h2
  unfold sampleSize
  omega

lemma sampleSize_025_lt {l : ℕ} (hl : 1 ≤ l) : sampleSize (1/40) l < l := by
  have h1 := pyRound_le_add_half ((1 : ℚ)/40 * l)
  have hlq : (1 : ℚ) ≤ (l : ℚ) := by exact_mod_cast hl
  have h2 : (1 : ℚ)/40 * l + 1/2 < (l : ℚ) := by nlinarith
  have h3 : pyRound ((1 : ℚ)/40 * l) < (l : ℤ) := by
    exact_mod_cast lt_of_le_of_lt h1 h2
  unfold sampleSize
  omega

lemma generate_device_eq (pool₀ : List String) (txns : List Row)
    (tape : ℕ → DevDraw) :
    generate_device_fingerprinting pool₀ txns tape =
      ((devGo tape txns 0 (devS0 pool₀)).1.map fun r =>
        ⟨r, ((devGo tape txns 0 (devS0 pool₀)).2.usage r.device_id).length⟩,
       (devGo tape txns 0 (devS0 pool₀)).2.pool) := rfl

/-- C4: every transaction's foreign keys resolve in the profile tables
(after forcible reassignment included), every device row's transaction
id is a generated transaction's id, and every alert's transaction id is
a sampled transaction's id. -/
theorem referential_integrity :
    (∀ (inp : EngineInput) (n : ℕ) (tape : ℕ → Draw) (rows : List Row),
      generate_transactions_advanced inp n tape = .ok rows →
      ∀ r ∈ rows,
        (∃ c ∈ inp.customers, r.customer_id = c.customer_id) ∧
        (∃ m ∈ inp.merchants, r.merchant_id = m.merchant_id)) ∧
    (∀ (pool₀ : List String) (txns : List Row) (tape : ℕ → DevDraw),
      ∀ dr ∈ (generate_device_fingerprinting pool₀ txns tape).1,
        ∃ t ∈ txns, dr.row.transaction_id = t.transaction_id) ∧
    (∀ (txns frSel lgSel : List Row) (tape : ℕ → AlertDraw),
      frSel.Subperm (fraudRows txns) → lgSel.Subperm (legitRows txns) →
      ∀ a ∈ generate_fraud_alerts_history frSel lgSel tape,
        ∃ t ∈ txns, a.transaction_id = t.transaction_id) := by
  refine ⟨?_, ?_, ?_⟩
  · intro inp n tape rows h r hr
    obtain ⟨s', hg, -⟩ := generate_ok_inv h
    have hp := engineGo_rows_forall _ step_row_props hg r hr
    exact ⟨hp.2.2.2.2.2.1, hp.2.2.2.2.2.2⟩
  · intro pool₀ txns tape dr hdr
    rw [generate_device_eq] at hdr
    obtain ⟨r, hr, hfr⟩ := List.mem_map.mp hdr
    obtain ⟨t, ht, hid⟩ := devGo_txn_ids tape txns 0 (devS0 pool₀) r hr
    refine ⟨t, ht, ?_⟩
    rw [← hfr]
    exact hid
  · intro txns frSel lgSel tape hfr hlg a ha
    obtain ⟨k, t, hmem, hat⟩ := alert_mem_inv ha
    have ht : t ∈ txns := by
      rcases List.mem_append.mp hmem with h | h
      · exact List.mem_of_mem_filter (hfr.subset h)
      · exact List.mem_of_mem_filter (hlg.subset h)
    refine ⟨t, ht, ?_⟩
    rw [hat]
    rfl

/-- C8: after the full device pass, `device_user_count` for each row
equals the number of distinct customers observed against that row's
device id across the whole stream, and the row's own customer makes it
at least 1. -/
theorem device_user_count_correct (pool₀ : List String) (txns : List Row)
    (tape : ℕ → DevDraw) :
    ∀ rf ∈ (generate_device_fingerprinting pool₀ txns tape).1,
      rf.device_user_count =
        (observedUsers
          (devicePairs (generate_device_fingerprinting pool₀ txns tape).1 txns)
          rf.row.device_id).card ∧
      1 ≤ rf.device_user_count := by
  intro rf hrf
  rw [generate_device_eq] at hrf ⊢
  have hspec := devGo_usage_spec tape txns 0 (devS0 pool₀)
    (fun dvc => List.nodup_nil)
  have hpairs : devicePairs
      ((devGo tape txns 0 (devS0 pool₀)).1.map fun r =>
        ⟨r, (((devGo tape txns 0 (devS0 pool₀)).2.usage r.device_id)).length⟩) txns
      = rawPairs (devGo tape txns 0 (devS0 pool₀)).1 txns := by
    unfold devicePairs rawPairs
    rw [List.zip_map_left, List.map_map]
    rfl
  obtain ⟨r, hr, hfr⟩ := List.mem_map.mp hrf
  obtain ⟨hnd, hmem⟩ := hspec r.device_id
  subst hfr
  constructor
  · show ((devGo tape txns 0 (devS0 pool₀)).2.usage r.device_id).length = _
    rw [hpairs]
    have hToF : ((devGo tape txns 0 (devS0 pool₀)).2.usage r.device_id).toFinset =
        observedUsers (rawPairs (devGo tape txns 0 (devS0 pool₀)).1 txns) r.device_id := by
      ext c
      rw [List.mem_toFinset, hmem c]
      simp only [observedUsers, List.mem_toFinset, List.mem_map, List.mem_filter]
      constructor
      · rintro (h | h)
        · exact absurd h (by simp [devS0])
        · exact ⟨(r.device_id, c), ⟨h, by simp⟩, rfl⟩
      · rintro ⟨⟨p1, p2⟩, ⟨hp, hfil⟩, hpc⟩
        simp only [decide_eq_true_eq] at hfil
        right
        rw [← hpc]
        rwa [hfil] at hp
    rw [← hToF, List.toFinset_card_of_nodup hnd]
  · show 1 ≤ ((devGo tape txns 0 (devS0 pool₀)).2.usage r.device_id).length
    obtain ⟨⟨k, hk⟩, hget⟩ := List.mem_iff_get.mp hr
    have hk2 : k < txns.length := by
      rw [← devGo_length tape txns 0 (devS0 pool₀)]
      exact hk
    have hz := get_pair_mem_zip (devGo tape txns 0 (devS0 pool₀)).1 txns k hk hk2
    have hpair : (r.device_id, (txns.get ⟨k, hk2⟩).customer_id) ∈
        rawPairs (devGo tape txns 0 (devS0 pool₀)).1 txns := by
      unfold rawPairs
      refine List.mem_map.mpr
        ⟨((devGo tape txns 0 (devS0 pool₀)).1.get ⟨k, hk⟩, txns.get ⟨k, hk2⟩), hz, ?_⟩
      rw [hget]
    have hcmem : (txns.get ⟨k, hk2⟩).customer_id ∈
        (devGo tape txns 0 (devS0 pool₀)).2.usage r.device_id :=
      (hmem _).mpr (Or.inr hpair)
    have hpos := List.length_pos.mpr (List.ne_nil_of_mem hcmem)
    omega

/-- C7 (amended): the compromised-device pool is simulator-instance
state — each invocation only appends to the pool it is given, so the
pool carried into a later invocation still holds every identity minted
before. -/
theorem compromised_pool_instance_scoped (pool₀ : List String)
    (txns : List Row) (tape : ℕ → DevDraw) :
    ∃ rest, (generate_device_fingerprinting pool₀ txns tape).2 = pool₀ ++ rest := by
  rw [generate_device_eq]
  exact devGo_pool_extend tape txns 0 (devS0 pool₀)

lemma hdevRowsW : (generate_device_fingerprinting [] [rowW] devTapeW).1 = [devRowFW] := rfl

lemma hpool1 : (generate_device_fingerprinting [] [rowATO1] (fun _ => dMint)).2
    = ["DEV_FRAUD_00000"] := by
  show (devStep rowATO1 dMint (devS0 [])).2.pool = ["DEV_FRAUD_00000"]
  norm_num [devStep, rowATO1, dMint, dDevW, clamp01_zero, clamp01_one, devS0, padNum]
  decide

lemma hreuse : (devStep rowATO2 dReuse (devS0 ["DEV_FRAUD_00000"])).1.device_id
    = "DEV_FRAUD_00000" := by
  norm_num [devStep, rowATO2, rowATO1, dReuse, dDevW, clamp01_zero, clamp01_one,
    devS0, sampleList]

/-- C7 counterexample: a device identity minted for account-takeover
sharing in a first device-generation run is reused by a second run on
the same simulator instance (the pool is threaded, not reset). -/
theorem compromised_pool_reuse_counterexample :
    (generate_device_fingerprinting [] [rowATO1] (fun _ => dMint)).2
      = ["DEV_FRAUD_00000"] ∧
    ∃ dr ∈ (generate_device_fingerprinting
        (generate_device_fingerprinting [] [rowATO1] (fun _ => dMint)).2
        [rowATO2] (fun _ => dReuse)).1,
      dr.row.device_id = "DEV_FRAUD_00000" := by
  refine ⟨hpool1, ?_⟩
  rw [hpool1]
  refine ⟨⟨(devStep rowATO2 dReuse (devS0 ["DEV_FRAUD_00000"])).1,
    ((devStep rowATO2 dReuse (devS0 ["DEV_FRAUD_00000"])).2.usage
      ((devStep rowATO2 dReuse (devS0 ["DEV_FRAUD_00000"])).1.device_id)).length⟩,
    ?_, hreuse⟩
  rw [show (generate_device_fingerprinting ["DEV_FRAUD_00000"] [rowATO2]
      (fun _ => dReuse)).1 =
    [⟨(devStep rowATO2 dReuse (devS0 ["DEV_FRAUD_00000"])).1,
      ((devStep rowATO2 dReuse (devS0 ["DEV_FRAUD_00000"])).2.usage
        ((devStep rowATO2 dReuse (devS0 ["DEV_FRAUD_00000"])).1.device_id)).length⟩]
    from rfl]
  exact List.mem_singleton_self _

/-- Witness for C8 at a concrete one-transaction device pass. -/
theorem device_user_count_correct_witness :
    (generate_device_fingerprinting [] [rowW] devTapeW).1 = [devRowFW] ∧
    devRowFW.device_user_count =
      (observedUsers (devicePairs [devRowFW] [rowW]) devRowFW.row.device_id).card ∧
    1 ≤ devRowFW.device_user_count := by
  have h2 := device_user_count_correct [] [rowW] devTapeW devRowFW
    (by rw [hdevRowsW]; exact List.mem_singleton_self _)
  rw [hdevRowsW] at h2
  exact ⟨hdevRowsW, h2.1, h2.2⟩

lemma hfraudRowsCT : fraudRows [rowCT] = [rowCT] := by
  simp [fraudRows, rowCT_card_testing.1]

lemma hlegitRowsCT : legitRows [rowCT] = [] := by
  simp [legitRows, rowCT_card_testing.1]

/-- Witness for C4 at concrete runs of the three generators. -/
theorem referential_integrity_witness :
    (∀ r ∈ [rowW], (∃ c ∈ inpW.customers, r.customer_id = c.customer_id) ∧
      (∃ m ∈ inpW.merchants, r.merchant_id = m.merchant_id)) ∧
    (∀ dr ∈ (generate_device_fingerprinting [] [rowW] devTapeW).1,
      ∃ t ∈ [rowW], dr.row.transaction_id = t.transaction_id) ∧
    (∀ a ∈ generate_fraud_alerts_history [rowCT] [] alertTapeW,
      ∃ t ∈ [rowCT], a.transaction_id = t.transaction_id) := by
  refine ⟨referential_integrity.1 inpW 1 tapeW [rowW] hgenW,
    referential_integrity.2.1 [] [rowW] devTapeW,
    referential_integrity.2.2 [rowCT] [rowCT] [] alertTapeW ?_ ?_⟩
  · rw [hfraudRowsCT]
  · exact List.nil_subperm

lemma subperm_append {α : Type} {l₁ r₁ l₂ r₂ : List α}
    (h1 : l₁.Subperm r₁) (h2 : l₂.Subperm r₂) :
    (l₁ ++ l₂).Subperm (r₁ ++ r₂) := by
  obtain ⟨u, hu, hus⟩ := h1
  obtain ⟨v, hv, hvs⟩ := h2
  exact ⟨u ++ v, hu.append hv, hus.append hvs⟩

lemma subperm_map {α β : Type} (f : α → β) {l₁ l₂ : List α}
    (h : l₁.Subperm l₂) : (l₁.map f).Subperm (l₂.map f) := by
  obtain ⟨u, hu, hus⟩ := h
  exact ⟨u.map f, hu.map f, hus.map f⟩

/-- C9 (amended): the alert table draws `round(0.65·f)` fraud rows and
`round(0.025·l)` legitimate rows without replacement, so there is at
most one alert per transaction and never more alerts than transactions —
strictly fewer whenever the table has at least two fraud rows or one
legitimate row (a single-row all-fraud table yields exactly one alert) —
and each alert copies the referenced transaction's ground truth:
`is_confirmed_fraud` equals the transaction's `is_fraud`, and the
confirmation date is the transaction timestamp plus the detection delay
in days for frauds, and the timestamp itself for legitimate rows. -/
theorem alert_table_properties {txns frSel lgSel : List Row} {tape : ℕ → AlertDraw}
    (hfr : frSel.Subperm (fraudRows txns))
    (hlg : lgSel.Subperm (legitRows txns))
    (hfrLen : frSel.length = sampleSize (13/20) (fraudRows txns).length)
    (hlgLen : lgSel.length = sampleSize (1/40) (legitRows txns).length)
    (hb : ∀ t ∈ txns, t.is_fraud = 0 ∨ t.is_fraud = 1)
    (hids : (txns.map Row.transaction_id).Nodup) :
    (generate_fraud_alerts_history frSel lgSel tape).length ≤ txns.length ∧
    ((2 ≤ (fraudRows txns).length ∨ 1 ≤ (legitRows txns).length) →
      (generate_fraud_alerts_history frSel lgSel tape).length < txns.length) ∧
    ((generate_fraud_alerts_history frSel lgSel tape).map Alert.transaction_id).Nodup ∧
    ∀ a ∈ generate_fraud_alerts_history frSel lgSel tape,
      ∃ t ∈ txns, a.transaction_id = t.transaction_id ∧
        a.is_confirmed_fraud = t.is_fraud ∧
        (t.is_fraud ≠ 0 → a.confirmation_date =
          t.transaction_timestamp.secs +
            86400 * ((t.detection_delay_days.getD 0 : ℕ) : ℚ)) ∧
        (t.is_fraud = 0 → a.confirmation_date = t.transaction_timestamp.secs) := by
  have hperm := fraud_legit_perm hb
  have hlen_part : (fraudRows txns).length + (legitRows txns).length = txns.length := by
    have := hperm.length_eq
    simpa using this
  have hLen := alerts_length frSel lgSel tape
  have hfrle : frSel.length ≤ (fraudRows txns).length := hfr.length_le
  have hlgle : lgSel.length ≤ (legitRows txns).length := hlg.length_le
  refine ⟨?_, ?_, ?_, ?_⟩
  · rw [hLen]
    omega
  · intro hcase
    rw [hLen]
    rcases hcase with h2 | h2
    · have hfrlt : frSel.length < (fraudRows txns).length := by
        rw [hfrLen]
        exact sampleSize_65_lt h2
      omega
    · have hlglt : lgSel.length < (legitRows txns).length := by
        rw [hlgLen]
        exact sampleSize_025_lt h2
      omega
  · rw [alerts_map_tid]
    have hsp : (frSel ++ lgSel).Subperm txns :=
      (subperm_append hfr hlg).trans hperm.subperm
    obtain ⟨l, hlp, hls⟩ := subperm_map Row.transaction_id hsp
    exact hlp.nodup_iff.mp (hls.nodup hids)
  · intro a ha
    obtain ⟨k, t, hmem, hat⟩ := alert_mem_inv ha
    have ht : t ∈ txns := by
      rcases List.mem_append.mp hmem with h | h
      · exact List.mem_of_mem_filter (hfr.subset h)
      · exact List.mem_of_mem_filter (hlg.subset h)
    refine ⟨t, ht, by rw [hat]; rfl, by rw [hat]; rfl, ?_, ?_⟩
    · intro hf
      rw [hat]
      simp [mkAlert, hf]
    · intro hf
      rw [hat]
      simp [mkAlert, hf]

/-- C9 counterexample: on the reachable one-row all-fraud transaction
table, the sampler must draw `round(0.65·1) = 1` fraud row and 0
legitimate rows, so the alert table has as many rows as the transaction
table — not strictly fewer, and not a strict subset. -/
theorem alert_strict_subset_counterexample :
    generate_transactions_advanced inpW 1 tapeCT = .ok [rowCT] ∧
    fraudRows [rowCT] = [rowCT] ∧
    ([rowCT].Subperm (fraudRows [rowCT])) ∧
    ([rowCT] : List Row).length = sampleSize (13/20) (fraudRows [rowCT]).length ∧
    (([] : List Row).Subperm (legitRows [rowCT])) ∧
    ([] : List Row).length = sampleSize (1/40) (legitRows [rowCT]).length ∧
    ¬ ((generate_fraud_alerts_history [rowCT] [] alertTapeW).length
        < ([rowCT] : List Row).length) := by
  have hf13 : (⌊(13 : ℚ)/20⌋ : ℤ) = 0 := by
    rw [Int.floor_eq_iff] <;> norm_num
  have hn65 : sampleSize (13/20) 1 = 1 := by
    simp only [sampleSize, pyRound, Nat.cast_one, mul_one]
    rw [hf13]
    norm_num
  have hn025 : sampleSize (1/40) 0 = 0 := by
    simp only [sampleSize, pyRound, Nat.cast_zero, mul_zero]
    norm_num
  refine ⟨hgenCT, hfraudRowsCT, by rw [hfraudRowsCT], ?_, List.nil_subperm, ?_, ?_⟩
  · rw [hfraudRowsCT]
    simpa using hn65.symm
  · rw [hlegitRowsCT]
    simpa using hn025.symm
  · rw [alerts_length]
    norm_num

/-- Witness for C9 (amended) at the concrete one-fraud-row table. -/
theorem alert_table_properties_witness :
    (generate_fraud_alerts_history [rowCT] [] alertTapeW).length ≤
      ([rowCT] : List Row).length ∧
    ((2 ≤ (fraudRows [rowCT]).length ∨ 1 ≤ (legitRows [rowCT]).length) →
      (generate_fraud_alerts_history [rowCT] [] alertTapeW).length <
        ([rowCT] : List Row).length) ∧
    ((generate_fraud_alerts_history [rowCT] [] alertTapeW).map
      Alert.transaction_id).Nodup ∧
    ∀ a ∈ generate_fraud_alerts_history [rowCT] [] alertTapeW,
      ∃ t ∈ [rowCT], a.transaction_id = t.transaction_id ∧
        a.is_confirmed_fraud = t.is_fraud ∧
        (t.is_fraud ≠ 0 → a.confirmation_date =
          t.transaction_timestamp.secs +
            86400 * ((t.detection_delay_days.getD 0 : ℕ) : ℚ)) ∧
        (t.is_fraud = 0 → a.confirmation_date = t.transaction_timestamp.secs) := by
  have hf13 : (⌊(13 : ℚ)/20⌋ : ℤ) = 0 := by
    rw [Int.floor_eq_iff] <;> norm_num
  have hn65 : sampleSize (13/20) 1 = 1 := by
    simp only [sampleSize, pyRound, Nat.cast_one, mul_one]
    rw [hf13]
    norm_num
  have hn025 : sampleSize (1/40) 0 = 0 := by
    simp only [sampleSize, pyRound, Nat.cast_zero, mul_zero]
    norm_num
  refine alert_table_properties (by rw [hfraudRowsCT]) List.nil_subperm ?_ ?_ ?_ ?_
  · rw [hfraudRowsCT]
    simpa using hn65.symm
  · rw [hlegitRowsCT]
    simpa using hn025.symm
  · intro t htm
    rw [List.mem_singleton] at htm
    subst htm
    exact Or.inr rowCT_card_testing.1
  · simp
